import Mathlib

/-!
Verification of the markdown-to-adf conversion engine.

This file gives a shallow embedding, in Lean, of the converter source:

* the ADF data model (`src/types/adf.ts`) and the node/mark builders
  (`src/builders/nodes.ts`, `src/builders/marks.ts`);
* the inline token resolver (`src/utils/inline-parser.ts`);
* the preset/option resolver (`src/presets/index.ts`);
* the block token resolver (`src/converter/block-parser.ts`);
* the line-based `MarkdownConverter` (`src/converter.ts`).

JavaScript strings are modelled as `String` manipulated through `List Char`
helpers; JavaScript regular expressions are translated to explicit character
scans; the JS whitespace class is approximated by `Char.isWhitespace`
(correct on the space, tab, CR and LF characters that actually occur in
markdown-it token streams).  Mutable state (the shared warning log, the
generated-localId source) is threaded explicitly; `throw` is modelled with
`Except`; `while` loops are modelled with fuel (`Option` result, `none`
meaning the fuel ran out, which corresponds to a JS run that has not
terminated yet).
-/

/-! ## Character-list string helpers (models of the JS string operations) -/

/-- Model of the JS `String.prototype.trim`. -/
def trimChars (cs : List Char) : List Char :=
  ((cs.dropWhile Char.isWhitespace).reverse.dropWhile Char.isWhitespace).reverse

/-- Model of the JS `trim` on `String`. -/
def jsTrim (s : String) : String := String.mk (trimChars s.toList)

/-- Helper for `splitLines`. -/
def splitLinesAux (cur : List Char) : List Char → List String
  | [] => [String.mk cur.reverse]
  | c :: cs =>
    if c == '\n' then String.mk cur.reverse :: splitLinesAux [] cs
    else splitLinesAux (c :: cur) cs

/-- Model of the JS `markdown.split(newline)` used by `MarkdownConverter.convert`. -/
def splitLines (s : String) : List String := splitLinesAux [] s.toList

/-- Whether the first list starts with the second one. -/
def segStartsWith [BEq α] : List α → List α → Bool
  | _, [] => true
  | [], _ :: _ => false
  | a :: as, b :: bs => a == b && segStartsWith as bs

/-- Model of the JS `String.prototype.startsWith`. -/
def strStartsWith (s pre : String) : Bool := segStartsWith s.toList pre.toList

/-- Whether the pattern occurs as a contiguous run inside the list. -/
def containsSeg [BEq α] : List α → List α → Bool
  | [], pat => pat.isEmpty
  | l@(_ :: rest), pat => segStartsWith l pat || containsSeg rest pat

/-- Model of the JS `String.prototype.endsWith` for a single character. -/
def endsWithChar (s : String) (c : Char) : Bool :=
  match s.toList.getLast? with
  | some l => l == c
  | none => false

/-- Drop the last character of a string (used for the single-trailing-newline strip). -/
def dropLastChar (s : String) : String := String.mk s.toList.dropLast

/-- Model of `Number(s)` restricted to the shapes that occur here: an
empty / all-whitespace string evaluates to `0`, a trimmed digit string to its
value, and anything else to NaN (`none`). -/
def jsNat (s : String) : Option Nat :=
  let cs := trimChars s.toList
  if cs.isEmpty then some 0
  else if cs.all Char.isDigit then
    some (cs.foldl (fun acc c => acc * 10 + (c.toNat - 48)) 0)
  else none

/-- Model of the JS `classAttr.split(whitespace-run)` + `includes` test. -/
def splitOnWs (s : String) : List String :=
  (s.toList.splitOnP Char.isWhitespace).map String.mk

/-! ## ADF data model (`src/types/adf.ts`) -/

/-- Text formatting marks (`ADFMark` union in the source).  A `link` mark with
`title = none` models the JS object `{href}` with no `title` key. -/
inductive ADFMark where
  | strong
  | em
  | code
  | strike
  | underline
  | link (href : String) (title : Option String)
  | textColor (color : String)
deriving DecidableEq, Repr

/-- Inline nodes (`ADFInlineNode` union).  A `text` node with `marks = []`
models the JS object without a `marks` key (the `text` builder only attaches
the key for a non-empty array, and `areMarksEqual` treats a missing key and an
empty array alike). -/
inductive ADFInline where
  | text (value : String) (marks : List ADFMark)
  | hardBreak
  | inlineCard (url : String)
  | mention (id : String) (mtext : Option String)
  | emoji (shortName : String)
deriving DecidableEq, Repr

/-- Attributes of a `table` node. -/
structure ADFTableAttrs where
  isNumberColumnEnabled : Bool
  layout : String
deriving DecidableEq, Repr

mutual
/-- Block nodes (`ADFBlockNode` union).  `paragraph []` models a paragraph
without a `content` key (the builder omits the key for an empty array);
`codeBlock none` models a code block without a `language` attribute. -/
inductive ADFBlock where
  | paragraph (content : List ADFInline)
  | heading (level : Nat) (content : List ADFInline)
  | bulletList (items : List ADFListItem)
  | orderedList (items : List ADFListItem)
  | taskList (localId : String) (items : List ADFTaskItem)
  | codeBlock (language : Option String) (code : String)
  | blockQuote (content : List ADFBlock)
  | rule
  | panel (panelType : String) (content : List ADFBlock)
  | table (attrs : Option ADFTableAttrs) (rows : List ADFTableRow)
/-- List items: the static type restricts content to paragraphs and lists, the
runtime filter in `parseListItem` enforces it; the model uses the wider
`ADFBlock` so that the restriction is a provable property. -/
inductive ADFListItem where
  | mk (content : List ADFBlock)
/-- Task items; `state` is the literal `TODO` / `DONE` string. -/
inductive ADFTaskItem where
  | mk (localId : String) (state : String) (content : List ADFInline)
/-- Table rows. -/
inductive ADFTableRow where
  | mk (cells : List ADFTableCellNode)
/-- Table cells: `header` is a `tableHeader` node, `cell` a `tableCell` node;
both wrap a list of blocks (always paragraphs in the emitted output). -/
inductive ADFTableCellNode where
  | header (content : List ADFBlock)
  | cell (content : List ADFBlock)
end

/-- Root document node (`ADFDocument`): fixed `type = doc`, `version = 1`. -/
structure ADFDocument where
  content : List ADFBlock

/-- Accessor for list item content. -/
def ADFListItem.content : ADFListItem → List ADFBlock
  | .mk c => c

/-- Accessor for task item content. -/
def ADFTaskItem.content : ADFTaskItem → List ADFInline
  | .mk _ _ c => c

/-- Accessor for the task item state string. -/
def ADFTaskItem.state : ADFTaskItem → String
  | .mk _ s _ => s

/-! ## Node and mark builders (`src/builders/nodes.ts`, `src/builders/marks.ts`) -/

/-- Builder `text(text, marks?)`.  The source attaches the `marks` key only
when the array is non-empty; the model represents both shapes by the list. -/
def text (value : String) (marks : List ADFMark) : ADFInline := .text value marks

/-- Builder `hardBreak()`. -/
def hardBreak : ADFInline := .hardBreak

/-- Builder `link(href, title?)`: `title` is attached only when truthy. -/
def linkMark (href : String) (title : Option String) : ADFMark :=
  match title with
  | some t => if t == "" then .link href none else .link href (some t)
  | none => .link href none

/-- Builder `paragraph(content = [])`. -/
def paragraph (content : List ADFInline) : ADFBlock := .paragraph content

/-- Builder `heading(level, content)`. -/
def heading (level : Nat) (content : List ADFInline) : ADFBlock := .heading level content

/-- Builder `bulletList(items)`. -/
def bulletList (items : List ADFListItem) : ADFBlock := .bulletList items

/-- Builder `orderedList(items)`. -/
def orderedList (items : List ADFListItem) : ADFBlock := .orderedList items

/-- Builder `listItem(content)`. -/
def listItem (content : List ADFBlock) : ADFListItem := .mk content

/-- Builder `taskList(items, localId?)` with the generated id supplied by the
caller (the source calls the impure `generateLocalId()` when no id is given;
the embedding threads an id source explicitly). -/
def taskList (items : List ADFTaskItem) (localId : String) : ADFBlock :=
  .taskList localId items

/-- Builder `taskItem(content, checked, localId?)`; `state` is `DONE` for a
checked item and `TODO` otherwise. -/
def taskItem (content : List ADFInline) (checked : Bool) (localId : String) : ADFTaskItem :=
  .mk localId (if checked then "DONE" else "TODO") content

/-- Builder `codeBlock(code, language?)`: the `language` attribute is attached
only when the string is truthy (non-empty). -/
def codeBlock (code : String) (language : String) : ADFBlock :=
  .codeBlock (if language == "" then none else some language) code

/-- Builder `blockQuote(content)`. -/
def blockQuote (content : List ADFBlock) : ADFBlock := .blockQuote content

/-- Builder `table(rows, options)` as called by both converters: the call
sites always pass `isNumberColumnEnabled := false, layout := default`. -/
def tableNode (rows : List ADFTableRow) : ADFBlock :=
  .table (some { isNumberColumnEnabled := false, layout := "default" }) rows

/-- Builder `tableRow(cells)`. -/
def tableRow (cells : List ADFTableCellNode) : ADFTableRow := .mk cells

/-- Builder `tableHeader(content)`. -/
def tableHeader (content : List ADFBlock) : ADFTableCellNode := .header content

/-- Builder `tableCell(content)`. -/
def tableCell (content : List ADFBlock) : ADFTableCellNode := .cell content

/-- Builder `doc(content)`. -/
def doc (content : List ADFBlock) : ADFDocument := ⟨content⟩

/-! ## Warnings (`src/types/options.ts` plus the `risky_feature` kind used by
`src/converter/block-parser.ts`) -/

/-- Warning kinds.  The `ConversionWarning.type` union in `types/options.ts`
lists only the first three; the block parser additionally emits
`risky_feature`. -/
inductive WarningKind where
  | unsupported_feature
  | lossy_conversion
  | invalid_syntax
  | risky_feature
deriving DecidableEq, Repr

/-- A conversion warning: kind, message, optional 1-based line, optional
offending markdown. -/
structure ConversionWarning where
  kind : WarningKind
  message : String
  line : Option Nat
  markdown : Option String
deriving DecidableEq, Repr

/-- The value thrown by `BlockParser.createError`: the JS `Error` carries a
human-readable `message` and a `conversionError` payload of the same shape as
a warning. -/
structure ConversionError where
  message : String
  conversionError : ConversionWarning
deriving DecidableEq, Repr

/-- Model of `BlockParser.createError`. -/
def createError (kind : WarningKind) (message : String) (line : Option Nat)
    (markdown : Option String) : ConversionError :=
  let details :=
    match line with
    | some l => if l == 0 then "" else " (line " ++ toString l ++ ")"
    | none => ""
  { message := message ++ details
    conversionError := { kind, message, line, markdown } }

/-! ## markdown-it tokens -/

/-- A markdown-it token as consumed by the converter: type tag, HTML tag,
content, attribute list, nested children (for `inline` tokens), source line
map and fence info string. -/
inductive Token where
  | mk (ttype : String) (tag : String) (content : String)
       (attrs : List (String × String)) (children : Option (List Token))
       (srcMap : Option (Nat × Nat)) (info : String)

/-- The token type tag. -/
def Token.ttype : Token → String
  | .mk t _ _ _ _ _ _ => t

/-- The token HTML tag. -/
def Token.tag : Token → String
  | .mk _ t _ _ _ _ _ => t

/-- The token content. -/
def Token.content : Token → String
  | .mk _ _ c _ _ _ _ => c

/-- The token attribute list. -/
def Token.attrs : Token → List (String × String)
  | .mk _ _ _ a _ _ _ => a

/-- The nested child tokens of an `inline` token. -/
def Token.children : Token → Option (List Token)
  | .mk _ _ _ _ c _ _ => c

/-- The source line map. -/
def Token.srcMap : Token → Option (Nat × Nat)
  | .mk _ _ _ _ _ m _ => m

/-- The fence info string. -/
def Token.info : Token → String
  | .mk _ _ _ _ _ _ i => i

/-- Model of `getAttr` (both in `inline-parser.ts` and `block-parser.ts`):
the value of the first attribute with the given name. -/
def getAttr (t : Token) (name : String) : Option String :=
  (t.attrs.find? (fun a => a.fst == name)).map (fun a => a.snd)

/-- Model of `BlockParser.getLine`: `map[0] + 1` when a line map is present. -/
def getLine (t : Token) : Option Nat :=
  t.srcMap.map (fun p => p.fst + 1)

/-- `getLine` of the token at an index (the source indexes with a non-null
assertion; callers only use indices of existing tokens). -/
def getLineAt (tokens : List Token) (i : Nat) : Option Nat :=
  (tokens.get? i).bind getLine

/-! ## Inline resolver (`src/utils/inline-parser.ts`) -/

/-- A single-quote character, written via its code point. -/
def squote : Char := Char.ofNat 39

/-- Model of the test `/type=["']checkbox["']/i` from `parseTaskCheckbox` and
`inlineHasTaskCheckbox` (the case-insensitive flag is modelled by lowering the
subject; the pattern itself is lower-case). -/
def isCheckboxHtml (html : String) : Bool :=
  let cs := (html.toList.map Char.toLower)
  containsSeg cs ("type=\"checkbox\"".toList)
    || containsSeg cs ("type=".toList ++ [squote] ++ "checkbox".toList ++ [squote])

/-- Helper for the `/checked(=|\s|>)/i` test: scan for an occurrence of
`checked` followed by `=`, whitespace or `>`. -/
def checkedFollows : List Char → Bool
  | [] => false
  | l@(_ :: rest) =>
    (segStartsWith l ("checked".toList) &&
      (match l.drop 7 with
       | c :: _ => c == '=' || c.isWhitespace || c == '>'
       | [] => false))
    || checkedFollows rest

/-- Model of `parseTaskCheckbox(html)`: `(isCheckbox, checked)`. -/
def parseTaskCheckbox (html : String) : Bool × Bool :=
  let isCheckbox := isCheckboxHtml html
  if isCheckbox then (true, checkedFollows (html.toList.map Char.toLower))
  else (false, false)

/-- The `type` string of a mark, as compared by `areMarksEqual` and
`popMark`. -/
def markType : ADFMark → String
  | .strong => "strong"
  | .em => "em"
  | .code => "code"
  | .strike => "strike"
  | .underline => "underline"
  | .link _ _ => "link"
  | .textColor _ => "textColor"

/-- Model of the `shallowEqual` comparison of two mark `attrs` objects, for
marks whose `type` strings agree.  `link` carries `{href}` or `{href, title}`
(a missing and a present `title` key compare unequal); `textColor` carries
`{color}`; the remaining marks carry no attrs. -/
def markAttrsEqual : ADFMark → ADFMark → Bool
  | .link h1 t1, .link h2 t2 => h1 == h2 && t1 == t2
  | .textColor c1, .textColor c2 => c1 == c2
  | .strong, .strong => true
  | .em, .em => true
  | .code, .code => true
  | .strike, .strike => true
  | .underline, .underline => true
  | _, _ => false

/-- Model of `areMarksEqual(left, right)`: same length and, pointwise, same
`type` and shallow-equal `attrs` (the source treats an absent `left` and an
empty array alike, which the list model subsumes; its length guard plus
indexed loop is rendered as the equivalent pairwise recursion). -/
def areMarksEqual : List ADFMark → List ADFMark → Bool
  | [], [] => true
  | [], _ :: _ => false
  | _ :: _, [] => false
  | a :: as, b :: bs =>
    markType a == markType b && markAttrsEqual a b && areMarksEqual as bs

/-- Model of `pushText(value, activeMarks)` acting on the output node list:
empty text is dropped; text whose marks equal those of a trailing text node is
merged into it by concatenation; otherwise a new text node is appended. -/
def pushText (nodes : List ADFInline) (value : String) (activeMarks : List ADFMark) :
    List ADFInline :=
  if value == "" then nodes
  else
    match nodes.getLast? with
    | some (.text t m) =>
      if areMarksEqual m activeMarks then nodes.dropLast ++ [text (t ++ value) activeMarks]
      else nodes ++ [text value activeMarks]
    | _ => nodes ++ [text value activeMarks]

/-- Remove the first element satisfying the predicate; identity when none
does. -/
def removeFirstP (p : α → Bool) : List α → List α
  | [] => []
  | a :: as => if p a then as else a :: removeFirstP p as

/-- Model of `popMark(marks, type)`: remove the nearest-from-the-end mark of
the given type; leave the list unchanged when no such mark exists. -/
def popMark (marks : List ADFMark) (t : String) : List ADFMark :=
  (removeFirstP (fun m => markType m == t) marks.reverse).reverse

/-- The options bundle of `parseInlineTokens`. -/
structure InlineParseOptions where
  preserveLineBreaks : Bool
  stripTaskCheckbox : Bool
deriving DecidableEq, Repr

/-- The running accumulator of the `parseInlineTokens` loop: output nodes,
active-mark list and the `taskChecked` flag. -/
structure InlineAcc where
  nodes : List ADFInline
  marks : List ADFMark
  taskChecked : Bool
deriving DecidableEq, Repr

/-- Truthiness filter for JS attribute reads: a missing attribute and an
empty string are both falsy. -/
def truthyAttr : Option String → Option String
  | some s => if s == "" then none else some s
  | none => none

/-- One iteration of the `parseInlineTokens` token loop. -/
def inlineStep (opts : InlineParseOptions) (acc : InlineAcc) (tok : Token) : InlineAcc :=
  match tok.ttype with
  | "text" => { acc with nodes := pushText acc.nodes tok.content acc.marks }
  | "code_inline" =>
    { acc with nodes := pushText acc.nodes tok.content (acc.marks ++ [.code]) }
  | "softbreak" =>
    if opts.preserveLineBreaks then { acc with nodes := acc.nodes ++ [hardBreak] }
    else { acc with nodes := pushText acc.nodes " " acc.marks }
  | "hardbreak" => { acc with nodes := acc.nodes ++ [hardBreak] }
  | "strong_open" => { acc with marks := acc.marks ++ [.strong] }
  | "strong_close" => { acc with marks := popMark acc.marks "strong" }
  | "em_open" => { acc with marks := acc.marks ++ [.em] }
  | "em_close" => { acc with marks := popMark acc.marks "em" }
  | "s_open" => { acc with marks := acc.marks ++ [.strike] }
  | "del_open" => { acc with marks := acc.marks ++ [.strike] }
  | "s_close" => { acc with marks := popMark acc.marks "strike" }
  | "del_close" => { acc with marks := popMark acc.marks "strike" }
  | "link_open" =>
    match truthyAttr (getAttr tok "href") with
    | some href => { acc with marks := acc.marks ++ [linkMark href (getAttr tok "title")] }
    | none => acc
  | "link_close" => { acc with marks := popMark acc.marks "link" }
  | "html_inline" =>
    if opts.stripTaskCheckbox then
      if (parseTaskCheckbox tok.content).1 then
        { acc with taskChecked := acc.taskChecked || (parseTaskCheckbox tok.content).2 }
      else acc
    else acc
  | "image" =>
    match truthyAttr (getAttr tok "src") with
    | some src =>
      { acc with
        nodes := pushText acc.nodes
          ((if tok.content == "" then truthyAttr (getAttr tok "alt")
            else some tok.content).getD src)
          (acc.marks ++ [linkMark src none]) }
    | none =>
      match if tok.content == "" then truthyAttr (getAttr tok "alt")
            else some tok.content with
      | some a => { acc with nodes := pushText acc.nodes a acc.marks }
      | none => acc
  | _ => acc

/-- The result record of `parseInlineTokens`. -/
structure InlineResult where
  nodes : List ADFInline
  taskChecked : Bool
deriving DecidableEq, Repr

/-- Model of `parseInlineTokens(tokens, options)`: fold the step function over
the token list, starting from an empty accumulator. -/
def parseInlineTokens (tokens : Option (List Token)) (opts : InlineParseOptions) :
    InlineResult :=
  match tokens with
  | none => { nodes := [], taskChecked := false }
  | some ts =>
    if ts.isEmpty then { nodes := [], taskChecked := false }
    else
      let acc := ts.foldl (inlineStep opts) { nodes := [], marks := [], taskChecked := false }
      { nodes := acc.nodes, taskChecked := acc.taskChecked }

/-! ## Lemmas about mark equality and the merge invariant -/

/-- Two adjacent inline nodes violate the merge invariant when both are text
nodes whose mark lists compare equal under the source comparison. -/
def identicalMarkTextPair : ADFInline → ADFInline → Prop :=
  fun a b =>
    match a, b with
    | .text _ m1, .text _ m2 => areMarksEqual m1 m2 = true
    | _, _ => False

/-- Input for the C8 counterexample: a link whose open token carries an href,
containing a nested link whose open token carries no href; the inner close
token arrives while the outer link mark is still active. -/
def c8Tokens : List Token :=
  [Token.mk "link_open" "" "" [("href", "https://a")] none none "",
   Token.mk "link_open" "" "" [] none none "",
   Token.mk "link_close" "" "" [] none none "",
   Token.mk "text" "" "z" [] none none "",
   Token.mk "link_close" "" "" [] none none ""]

/-! ## Presets and option resolution (`src/presets/index.ts`,
`src/types/options.ts`) -/

/-- The named context presets. -/
inductive ContextPreset where
  | comment
  | task
  | story
  | default
deriving DecidableEq, Repr

/-- The preset name string (used in warning messages). -/
def presetName : ContextPreset → String
  | .comment => "comment"
  | .task => "task"
  | .story => "story"
  | .default => "default"

/-- User-supplied conversion options, all keys optional
(`ConversionOptions` in `src/types/options.ts`). -/
structure ConversionOptions where
  preset : Option ContextPreset
  useHeadings : Option Bool
  maxHeadingLevel : Option Nat
  preserveLineBreaks : Option Bool
  strictMode : Option Bool
  defaultCodeLanguage : Option String
deriving Repr

/-- A fully-resolved options record, i.e. the
`Required<Omit<ConversionOptions, preset>>` that the block parser consumes.
The block parser additionally reads a `warnOnRiskyNodes` key that the options
type in `src/types/options.ts` does not declare and that `resolveOptions`
never sets; a read of that missing key yields the JS `undefined`, which is
falsy, so it is modelled as a `Bool` that `resolveOptions` leaves `false`. -/
structure ResolvedOptions where
  useHeadings : Bool
  maxHeadingLevel : Nat
  preserveLineBreaks : Bool
  strictMode : Bool
  defaultCodeLanguage : String
  warnOnRiskyNodes : Bool
deriving DecidableEq, Repr

/-- The `PRESET_CONFIGS` table from `src/presets/index.ts`.  Note that none of
the entries — including `comment` — carries a `warnOnRiskyNodes` key. -/
def resolvePreset : ContextPreset → ResolvedOptions
  | .default =>
    { useHeadings := false, maxHeadingLevel := 6, preserveLineBreaks := false
      strictMode := false, defaultCodeLanguage := "text", warnOnRiskyNodes := false }
  | .comment =>
    { useHeadings := false, maxHeadingLevel := 6, preserveLineBreaks := false
      strictMode := false, defaultCodeLanguage := "text", warnOnRiskyNodes := false }
  | .task =>
    { useHeadings := false, maxHeadingLevel := 6, preserveLineBreaks := false
      strictMode := false, defaultCodeLanguage := "text", warnOnRiskyNodes := false }
  | .story =>
    { useHeadings := true, maxHeadingLevel := 6, preserveLineBreaks := false
      strictMode := false, defaultCodeLanguage := "text", warnOnRiskyNodes := false }

/-- Model of `resolveOptions(options)`: merge the user options over the preset
configuration.  The source merges exactly the five declared keys; no
`warnOnRiskyNodes` key is produced, so the resolved record always has the
falsy value for it. -/
def resolveOptions (options : ConversionOptions) : ResolvedOptions :=
  let preset := options.preset.getD .default
  let presetConfig := resolvePreset preset
  { useHeadings := options.useHeadings.getD presetConfig.useHeadings
    maxHeadingLevel := options.maxHeadingLevel.getD presetConfig.maxHeadingLevel
    preserveLineBreaks := options.preserveLineBreaks.getD presetConfig.preserveLineBreaks
    strictMode := options.strictMode.getD presetConfig.strictMode
    defaultCodeLanguage := options.defaultCodeLanguage.getD presetConfig.defaultCodeLanguage
    warnOnRiskyNodes := false }

/-- The preset actually used by a conversion call (`options.preset` with the
`default` fallback). -/
def resolvedPreset (options : ConversionOptions) : ContextPreset :=
  options.preset.getD .default

/-! ## Block resolver (`src/converter/block-parser.ts`) -/

/-- The context of one `BlockParser` instance: resolved options, active preset
and — replacing the impure `generateLocalId` — an explicit id source mapping
the n-th generation request to an opaque string. -/
structure BlockCtx where
  options : ResolvedOptions
  preset : ContextPreset
  gen : Nat → String

/-- The mutable per-conversion state: the shared append-only warning log and
the number of local ids generated so far. -/
structure BState where
  warnings : List ConversionWarning
  nextId : Nat
deriving DecidableEq, Repr

/-- Model of `addWarning`: append one warning to the log. -/
def addWarning (st : BState) (kind : WarningKind) (message : String)
    (line : Option Nat) (markdown : Option String) : BState :=
  { st with warnings := st.warnings ++ [{ kind, message, line, markdown }] }

/-- Draw a fresh local id (model of a `generateLocalId()` call). -/
def freshId (ctx : BlockCtx) (st : BState) : String × BState :=
  (ctx.gen st.nextId, { st with nextId := st.nextId + 1 })

/-- Results of the fueled block-parsing functions: `none` when the fuel ran
out, `some (.error e)` when the parser threw, `some (.ok v)` otherwise. -/
abbrev BRes (α : Type) := Option (Except ConversionError α)

/-- Model of `BlockParser.parseInline(token)`: resolve the children of an
inline token with the context line-break option and no checkbox stripping. -/
def parseInlineB (ctx : BlockCtx) (t : Option Token) : List ADFInline :=
  (parseInlineTokens (t.bind Token.children)
    { preserveLineBreaks := ctx.options.preserveLineBreaks,
      stripTaskCheckbox := false }).nodes

/-- Model of `getHeadingLevel(tag)`: `Number(tag.replace(h, ))` (first
occurrence of the character `h` removed), clamped to 1 when outside 1..6. -/
def dropFirstH : List Char → List Char
  | [] => []
  | c :: cs => if c == 'h' then cs else c :: dropFirstH cs

/-- Heading level extraction (`h1`..`h6` map to 1..6, anything else to 1). -/
def getHeadingLevel (tag : String) : Nat :=
  match jsNat (String.mk (dropFirstH tag.toList)) with
  | some n => if 1 ≤ n && n ≤ 6 then n else 1
  | none => 1

/-- Model of `applyMarkToInline(nodes, mark)`: an empty sequence becomes one
empty text run carrying the mark; otherwise the mark is appended to the mark
list of every text run and other nodes pass through unchanged. -/
def applyMarkToInline (nodes : List ADFInline) (mark : ADFMark) : List ADFInline :=
  if nodes.isEmpty then [text "" [mark]]
  else
    nodes.map fun n =>
      match n with
      | .text s ms => text s (ms ++ [mark])
      | other => other

/-- Model of `trimLeadingSpace(nodes)`: when the first node is a text run
starting with a space character, strip its leading whitespace; drop the node
when nothing remains. -/
def trimLeadingSpace (nodes : List ADFInline) : List ADFInline :=
  match nodes with
  | [] => []
  | first :: rest =>
    match first with
    | .text s ms =>
      if strStartsWith s " " then
        if (s.toList.dropWhile Char.isWhitespace).isEmpty then rest
        else text (String.mk (s.toList.dropWhile Char.isWhitespace)) ms :: rest
      else first :: rest
    | _ => first :: rest

/-- Model of `parseCodeBlockToken(token)`: the fence info string (trimmed,
default language when falsy) and the content with a single trailing newline
stripped. -/
def parseCodeBlockToken (ctx : BlockCtx) (tok : Token) : ADFBlock :=
  let language := if jsTrim tok.info == "" then ctx.options.defaultCodeLanguage
                  else jsTrim tok.info
  let content := if endsWithChar tok.content '\n' then dropLastChar tok.content
                 else tok.content
  codeBlock content language

/-- Model of `warnIfRisky(table, line)`: append one `risky_feature` warning
when `warnOnRiskyNodes` is set and the active preset is `comment`. -/
def warnIfRisky (ctx : BlockCtx) (st : BState) (line : Option Nat) : BState :=
  if !ctx.options.warnOnRiskyNodes then st
  else if ctx.preset == ContextPreset.comment then
    addWarning st .risky_feature
      "Tables in comments are supported but can be inconsistent in some Jira views" line none
  else st

/-- Model of `hasTaskItemClass(token)`: the `class` attribute split on
whitespace contains `task-list-item`. -/
def hasTaskItemClass (t : Token) : Bool :=
  match getAttr t "class" with
  | none => false
  | some c => (splitOnWs c).contains "task-list-item"

/-- Model of `inlineHasTaskCheckbox(token)`: some `html_inline` child matches
the checkbox pattern. -/
def inlineHasTaskCheckbox (t : Token) : Bool :=
  match t.children with
  | none => false
  | some cs => cs.any (fun ch => ch.ttype == "html_inline" && isCheckboxHtml ch.content)

/-- Scan forward (up to the matching `list_item_close`) for an inline token
containing checkbox markup. -/
def scanForCheckbox : List Token → Bool
  | [] => false
  | t :: rest =>
    if t.ttype == "list_item_close" then false
    else (t.ttype == "inline" && inlineHasTaskCheckbox t) || scanForCheckbox rest

/-- Model of `isTaskListItem(tokens, startIndex)`: the structural class
attribute check first, the checkbox content scan second. -/
def isTaskListItem (tokens : List Token) (startIndex : Nat) : Bool :=
  (match tokens.get? startIndex with
   | some t => hasTaskItemClass t
   | none => false)
  || scanForCheckbox (tokens.drop (startIndex + 1))

/-- A run of consecutive same-classification items inside one source list
(the `Segment` type of `parseList`). -/
inductive ListSegment where
  | task (items : List ADFTaskItem)
  | regular (items : List ADFListItem)

/-- The classification of a segment. -/
def ListSegment.isTask : ListSegment → Bool
  | .task _ => true
  | .regular _ => false

/-- Whether a segment holds no items. -/
def ListSegment.isEmptySeg : ListSegment → Bool
  | .task items => items.isEmpty
  | .regular items => items.isEmpty

/-- Append a parsed item to a segment, picking the representation matching the
segment kind (the source pushes `result.taskItem` into task segments and
`result.listItem` into regular ones). -/
def segAppendItem (seg : ListSegment) (li : ADFListItem) (ti : ADFTaskItem) : ListSegment :=
  match seg with
  | .task items => .task (items ++ [ti])
  | .regular items => .regular (items ++ [li])

/-- Model of `pushSegment`: empty segments are dropped. -/
def pushSegment (acc : List ListSegment) (seg : ListSegment) : List ListSegment :=
  if seg.isEmptySeg then acc else acc ++ [seg]

/-- Flush the trailing open segment at the end of the list loop. -/
def flushSegments (acc : List ListSegment) (cur : Option ListSegment) : List ListSegment :=
  match cur with
  | none => acc
  | some seg => pushSegment acc seg

/-- Model of the final `segments.map(...)` of `parseList`: task segments
become `taskList` nodes (consuming one generated id each), regular segments
become `bulletList` or `orderedList` nodes according to the source list
type. -/
def renderSegments (ctx : BlockCtx) (listType : String) :
    List ListSegment → BState → List ADFBlock × BState
  | [], st => ([], st)
  | ListSegment.task items :: rest, st =>
    let idSt := freshId ctx st
    let restResult := renderSegments ctx listType rest idSt.2
    (taskList items idSt.1 :: restResult.1, restResult.2)
  | ListSegment.regular items :: rest, st =>
    let restResult := renderSegments ctx listType rest st
    ((if listType == "bullet" then bulletList items else orderedList items) :: restResult.1,
      restResult.2)

/-- Whether a block may stay inside a regular list item
(paragraph / bulletList / orderedList). -/
def allowedInListItem : ADFBlock → Bool
  | .paragraph _ => true
  | .bulletList _ => true
  | .orderedList _ => true
  | _ => false

/-- Model of the cell loop of `parseTable` (between `tr_open` and
`tr_close`). -/
def parseTableCells (ctx : BlockCtx) (fuel : Nat) (tokens : List Token) (i : Nat)
    (isHeader : Bool) (acc : List ADFTableCellNode) :
    Option (List ADFTableCellNode × Nat) :=
  match fuel with
  | 0 => none
  | fuel + 1 =>
    match tokens.get? i with
    | none => some (acc, i)
    | some tok =>
      if tok.ttype == "tr_close" then some (acc, i)
      else if tok.ttype == "th_open" || tok.ttype == "td_open" then
        let isHeaderCell := tok.ttype == "th_open" || isHeader
        let inline := parseInlineB ctx (tokens.get? (i + 1))
        let cellContent := [paragraph inline]
        parseTableCells ctx fuel tokens (i + 3) isHeader
          (acc ++ [if isHeaderCell then tableHeader cellContent else tableCell cellContent])
      else parseTableCells ctx fuel tokens (i + 1) isHeader acc

/-- Model of the row loop of `parseTable` (inside a `thead` / `tbody`
section). -/
def parseTableRows (ctx : BlockCtx) (fuel : Nat) (tokens : List Token) (i : Nat)
    (sectionClose : String) (isHeader : Bool) (acc : List ADFTableRow) :
    Option (List ADFTableRow × Nat) :=
  match fuel with
  | 0 => none
  | fuel + 1 =>
    match tokens.get? i with
    | none => some (acc, i)
    | some tok =>
      if tok.ttype == sectionClose then some (acc, i)
      else if tok.ttype == "tr_open" then
        match parseTableCells ctx fuel tokens (i + 1) isHeader [] with
        | none => none
        | some (cells, n) =>
          parseTableRows ctx fuel tokens (n + 1) sectionClose isHeader (acc ++ [tableRow cells])
      else parseTableRows ctx fuel tokens (i + 1) sectionClose isHeader acc

/-- Model of the section loop of `parseTable` (until `table_close`). -/
def parseTableSections (ctx : BlockCtx) (fuel : Nat) (tokens : List Token) (i : Nat)
    (acc : List ADFTableRow) : Option (List ADFTableRow × Nat) :=
  match fuel with
  | 0 => none
  | fuel + 1 =>
    match tokens.get? i with
    | none => some (acc, i)
    | some tok =>
      if tok.ttype == "table_close" then some (acc, i)
      else if tok.ttype == "thead_open" || tok.ttype == "tbody_open" then
        let sectionClose := if tok.ttype == "thead_open" then "thead_close" else "tbody_close"
        let isHeader := tok.ttype == "thead_open"
        match parseTableRows ctx fuel tokens (i + 1) sectionClose isHeader acc with
        | none => none
        | some (rows, n) => parseTableSections ctx fuel tokens (n + 1) rows
      else parseTableSections ctx fuel tokens (i + 1) acc

/-- Model of `BlockParser.parseTable(tokens, startIndex)`: collect the rows of
every section and wrap them in a `table` node with the fixed attributes. -/
def parseTable (ctx : BlockCtx) (fuel : Nat) (tokens : List Token) (startIndex : Nat) :
    Option (ADFBlock × Nat) :=
  match parseTableSections ctx fuel tokens (startIndex + 1) [] with
  | none => none
  | some (rows, i) => some (tableNode rows, i + 1)

/-- The reason string attached to a heading downgrade or strict-mode abort:
preset incompatibility takes precedence over the max-level overflow. -/
def headingDowngradeReason (ctx : BlockCtx) (tag : String) : String :=
  if !(ctx.preset == ContextPreset.story || ctx.preset == ContextPreset.default) then
    "Headings are not supported in the " ++ presetName ctx.preset ++ " context"
  else
    "Heading level " ++ toString (getHeadingLevel tag) ++ " exceeds maxHeadingLevel "
      ++ toString ctx.options.maxHeadingLevel

/-- Sequencing of fueled, throwing computations: fuel exhaustion and thrown
errors propagate, results feed the continuation (the shape of every
`const result = this.parseX(...)` call in the source). -/
def bres_bind (x : BRes α) (f : α → BRes β) : BRes β :=
  match x with
  | none => none
  | some (.error e) => some (.error e)
  | some (.ok v) => f v

mutual
/-- Model of `BlockParser.parseBlockTokens(tokens, startIndex, endType)`: the
main cursor loop over block-level tokens.  Returns the nodes built from the
current position, the index just after the consumed span, and the updated
state; errors model strict-mode throws. -/
def parseBlockTokens (ctx : BlockCtx) (fuel : Nat) (tokens : List Token) (i : Nat)
    (endType : Option String) (st : BState) : BRes (List ADFBlock × Nat × BState) :=
  match fuel with
  | 0 => none
  | fuel + 1 =>
    match tokens.get? i with
    | none => some (.ok ([], i, st))
    | some tok =>
      if (match endType with
          | some e => tok.ttype == e
          | none => false) then
        some (.ok ([], i + 1, st))
      else
        match tok.ttype with
        | "paragraph_open" =>
          let inline := parseInlineB ctx (tokens.get? (i + 1))
          bres_bind (parseBlockTokens ctx fuel tokens (i + 3) endType st)
            (fun r => some (.ok (paragraph inline :: r.1, r.2.1, r.2.2)))
        | "heading_open" =>
          if (ctx.preset == ContextPreset.story || ctx.preset == ContextPreset.default)
              && ctx.options.useHeadings
              && !decide (getHeadingLevel tok.tag > ctx.options.maxHeadingLevel) then
            bres_bind (parseBlockTokens ctx fuel tokens (i + 3) endType st)
              (fun r => some (.ok (heading (getHeadingLevel tok.tag)
                (if (parseInlineB ctx (tokens.get? (i + 1))).isEmpty then [text "" []]
                 else parseInlineB ctx (tokens.get? (i + 1))) :: r.1, r.2.1, r.2.2)))
          else
            if ctx.options.strictMode &&
                (!(ctx.preset == ContextPreset.story || ctx.preset == ContextPreset.default)
                  || (ctx.options.useHeadings
                      && decide (getHeadingLevel tok.tag > ctx.options.maxHeadingLevel))) then
              some (.error (createError .unsupported_feature
                (headingDowngradeReason ctx tok.tag) (getLine tok) (some tok.content)))
            else
              bres_bind (parseBlockTokens ctx fuel tokens (i + 3) endType
                  (if !(ctx.preset == ContextPreset.story || ctx.preset == ContextPreset.default)
                      || (ctx.options.useHeadings
                          && decide (getHeadingLevel tok.tag > ctx.options.maxHeadingLevel)) then
                    addWarning st .lossy_conversion
                      (headingDowngradeReason ctx tok.tag ++ "; converting to bold text")
                      (getLine tok) (some tok.content)
                  else st))
                (fun r => some (.ok (paragraph
                  (applyMarkToInline (parseInlineB ctx (tokens.get? (i + 1))) .strong) :: r.1,
                  r.2.1, r.2.2)))
        | "bullet_list_open" =>
          bres_bind (parseList ctx fuel tokens i "bullet" st)
            (fun listRes => bres_bind
              (parseBlockTokens ctx fuel tokens listRes.2.1 endType listRes.2.2)
              (fun r => some (.ok (listRes.1 ++ r.1, r.2.1, r.2.2))))
        | "ordered_list_open" =>
          bres_bind (parseList ctx fuel tokens i "ordered" st)
            (fun listRes => bres_bind
              (parseBlockTokens ctx fuel tokens listRes.2.1 endType listRes.2.2)
              (fun r => some (.ok (listRes.1 ++ r.1, r.2.1, r.2.2))))
        | "blockquote_open" =>
          bres_bind (parseBlockQuote ctx fuel tokens i st)
            (fun quoteRes => bres_bind
              (parseBlockTokens ctx fuel tokens quoteRes.2.1 endType quoteRes.2.2)
              (fun r => some (.ok (quoteRes.1 ++ r.1, r.2.1, r.2.2))))
        | "fence" =>
          bres_bind (parseBlockTokens ctx fuel tokens (i + 1) endType st)
            (fun r => some (.ok (parseCodeBlockToken ctx tok :: r.1, r.2.1, r.2.2)))
        | "code_block" =>
          bres_bind (parseBlockTokens ctx fuel tokens (i + 1) endType st)
            (fun r => some (.ok (parseCodeBlockToken ctx tok :: r.1, r.2.1, r.2.2)))
        | "table_open" =>
          match parseTable ctx fuel tokens i with
          | none => none
          | some (node, n) =>
            bres_bind (parseBlockTokens ctx fuel tokens n endType
                (warnIfRisky ctx st (getLine tok)))
              (fun r => some (.ok (node :: r.1, r.2.1, r.2.2)))
        | "hr" =>
          if ctx.options.strictMode then
            some (.error (createError .unsupported_feature
              "Horizontal rules are not supported in this context" (getLine tok)
              (some tok.content)))
          else
            parseBlockTokens ctx fuel tokens (i + 1) endType
              (addWarning st .unsupported_feature
                "Horizontal rules are not supported in this context" (getLine tok)
                (some tok.content))
        | "inline" =>
          let inline := parseInlineB ctx (some tok)
          bres_bind (parseBlockTokens ctx fuel tokens (i + 1) endType st)
            (fun r => some (.ok (paragraph inline :: r.1, r.2.1, r.2.2)))
        | _ => parseBlockTokens ctx fuel tokens (i + 1) endType st

/-- Model of `BlockParser.parseList(tokens, startIndex, listType)`: run the
item loop and render the collected segments. -/
def parseList (ctx : BlockCtx) (fuel : Nat) (tokens : List Token) (startIndex : Nat)
    (listType : String) (st : BState) : BRes (List ADFBlock × Nat × BState) :=
  match fuel with
  | 0 => none
  | fuel + 1 =>
    bres_bind (parseListLoop ctx fuel tokens (startIndex + 1)
        (if listType == "bullet" then "bullet_list_close" else "ordered_list_close")
        listType none [] st)
      (fun r => some (.ok ((renderSegments ctx listType r.1 r.2.2).1, r.2.1 + 1,
        (renderSegments ctx listType r.1 r.2.2).2)))

/-- Model of the item loop of `parseList`: group consecutive items of the same
classification into segments, starting a new segment on every classification
change. -/
def parseListLoop (ctx : BlockCtx) (fuel : Nat) (tokens : List Token) (i : Nat)
    (closeType : String) (listType : String) (cur : Option ListSegment)
    (acc : List ListSegment) (st : BState) : BRes (List ListSegment × Nat × BState) :=
  match fuel with
  | 0 => none
  | fuel + 1 =>
    match tokens.get? i with
    | none => some (.ok (flushSegments acc cur, i, st))
    | some tok =>
      if tok.ttype == closeType then some (.ok (flushSegments acc cur, i, st))
      else if tok.ttype == "list_item_open" then
        let isTask := listType == "bullet" && isTaskListItem tokens i
        let grownAcc :=
          match cur with
          | none => acc
          | some seg => if seg.isTask == isTask then acc else pushSegment acc seg
        let startSeg :=
          match cur with
          | none => if isTask then ListSegment.task [] else ListSegment.regular []
          | some seg =>
            if seg.isTask == isTask then seg
            else if isTask then ListSegment.task [] else ListSegment.regular []
        bres_bind (parseListItem ctx fuel tokens i isTask st)
          (fun r => parseListLoop ctx fuel tokens r.2.1 closeType listType
            (some (segAppendItem startSeg r.1.1 r.1.2)) grownAcc r.2.2)
      else parseListLoop ctx fuel tokens (i + 1) closeType listType cur acc st

/-- Model of `BlockParser.parseListItem(tokens, startIndex, asTask)`: run the
body loop, then assemble either the task-item pair (warning when extra blocks
were dropped) or the regular list item (content filtered to
paragraph/bulletList/orderedList, one warning when anything was dropped, one
empty paragraph substituted when nothing remains). -/
def parseListItem (ctx : BlockCtx) (fuel : Nat) (tokens : List Token) (startIndex : Nat)
    (asTask : Bool) (st : BState) : BRes ((ADFListItem × ADFTaskItem) × Nat × BState) :=
  match fuel with
  | 0 => none
  | fuel + 1 =>
    bres_bind (parseListItemLoop ctx fuel tokens (startIndex + 1) asTask [] [] false st)
      (fun r =>
        let blocks := r.1.1
        let taskContent := r.1.2.1
        let taskChecked := r.1.2.2
        if asTask then
          let st₁ :=
            if blocks.isEmpty then r.2.2
            else addWarning r.2.2 .lossy_conversion
              "Task list items only support inline content; extra blocks were dropped"
              (getLineAt tokens startIndex) none
          some (.ok ((listItem [paragraph taskContent],
            taskItem taskContent taskChecked (freshId ctx st₁).1), r.2.1 + 1,
            (freshId ctx st₁).2))
        else
          let allowed := blocks.filter allowedInListItem
          let st₁ :=
            if allowed.length == blocks.length then r.2.2
            else addWarning r.2.2 .lossy_conversion
              "List items only support paragraphs and nested lists; unsupported blocks were dropped"
              (getLineAt tokens startIndex) none
          some (.ok ((listItem (if allowed.isEmpty then [paragraph []] else allowed),
            taskItem taskContent taskChecked (freshId ctx st₁).1), r.2.1 + 1,
            (freshId ctx st₁).2)))

/-- Model of the body loop of `parseListItem` (between `list_item_open` and
`list_item_close`): collects nested blocks; for a task item the first inline
content becomes the task content (leading whitespace stripped) and the
checkbox state. -/
def parseListItemLoop (ctx : BlockCtx) (fuel : Nat) (tokens : List Token) (i : Nat)
    (asTask : Bool) (blocks : List ADFBlock) (taskContent : List ADFInline)
    (taskChecked : Bool) (st : BState) :
    BRes ((List ADFBlock × List ADFInline × Bool) × Nat × BState) :=
  match fuel with
  | 0 => none
  | fuel + 1 =>
    match tokens.get? i with
    | none => some (.ok ((blocks, taskContent, taskChecked), i, st))
    | some tok =>
      if tok.ttype == "list_item_close" then
        some (.ok ((blocks, taskContent, taskChecked), i, st))
      else
        match tok.ttype with
        | "paragraph_open" =>
          let inlineResult := parseInlineTokens ((tokens.get? (i + 1)).bind Token.children)
            { preserveLineBreaks := ctx.options.preserveLineBreaks,
              stripTaskCheckbox := asTask }
          if asTask && taskContent.isEmpty then
            parseListItemLoop ctx fuel tokens (i + 3) asTask blocks
              (trimLeadingSpace inlineResult.nodes) inlineResult.taskChecked st
          else
            parseListItemLoop ctx fuel tokens (i + 3) asTask
              (blocks ++ [paragraph inlineResult.nodes]) taskContent taskChecked st
        | "bullet_list_open" =>
          bres_bind (parseList ctx fuel tokens i "bullet" st)
            (fun r => parseListItemLoop ctx fuel tokens r.2.1 asTask (blocks ++ r.1)
              taskContent taskChecked r.2.2)
        | "ordered_list_open" =>
          bres_bind (parseList ctx fuel tokens i "ordered" st)
            (fun r => parseListItemLoop ctx fuel tokens r.2.1 asTask (blocks ++ r.1)
              taskContent taskChecked r.2.2)
        | "blockquote_open" =>
          bres_bind (parseBlockQuote ctx fuel tokens i st)
            (fun r => parseListItemLoop ctx fuel tokens r.2.1 asTask (blocks ++ r.1)
              taskContent taskChecked r.2.2)
        | "fence" =>
          parseListItemLoop ctx fuel tokens (i + 1) asTask
            (blocks ++ [parseCodeBlockToken ctx tok]) taskContent taskChecked st
        | "code_block" =>
          parseListItemLoop ctx fuel tokens (i + 1) asTask
            (blocks ++ [parseCodeBlockToken ctx tok]) taskContent taskChecked st
        | "table_open" =>
          match parseTable ctx fuel tokens i with
          | none => none
          | some (node, n) =>
            parseListItemLoop ctx fuel tokens n asTask (blocks ++ [node])
              taskContent taskChecked (warnIfRisky ctx st (getLine tok))
        | "inline" =>
          let inlineResult := parseInlineTokens (tok.children)
            { preserveLineBreaks := ctx.options.preserveLineBreaks,
              stripTaskCheckbox := asTask }
          if asTask && taskContent.isEmpty then
            parseListItemLoop ctx fuel tokens (i + 1) asTask blocks
              (trimLeadingSpace inlineResult.nodes) inlineResult.taskChecked st
          else
            parseListItemLoop ctx fuel tokens (i + 1) asTask
              (blocks ++ [paragraph inlineResult.nodes]) taskContent taskChecked st
        | "hr" =>
          if ctx.options.strictMode then
            some (.error (createError .unsupported_feature
              "Horizontal rules are not supported in this context" (getLine tok)
              (some tok.content)))
          else
            parseListItemLoop ctx fuel tokens (i + 1) asTask blocks taskContent taskChecked
              (addWarning st .unsupported_feature
                "Horizontal rules are not supported in this context" (getLine tok)
                (some tok.content))
        | _ => parseListItemLoop ctx fuel tokens (i + 1) asTask blocks taskContent taskChecked st

/-- Model of `BlockParser.parseBlockQuote(tokens, startIndex)`: resolve the
span up to `blockquote_close`; under the `comment` preset splice the inner
blocks with a lossy warning (one empty paragraph when the span was empty),
otherwise wrap them in a `blockQuote` node. -/
def parseBlockQuote (ctx : BlockCtx) (fuel : Nat) (tokens : List Token) (startIndex : Nat)
    (st : BState) : BRes (List ADFBlock × Nat × BState) :=
  match fuel with
  | 0 => none
  | fuel + 1 =>
    bres_bind (parseBlockTokens ctx fuel tokens (startIndex + 1) (some "blockquote_close") st)
      (fun r =>
        if ctx.preset == ContextPreset.comment then
          some (.ok ((if r.1.isEmpty then [paragraph []] else r.1), r.2.1,
            addWarning r.2.2 .lossy_conversion
              "Block quotes are not supported in comments; converting to paragraphs"
              (getLineAt tokens startIndex) none))
        else some (.ok ([blockQuote r.1], r.2.1, r.2.2)))
end

def headingOpenTok (tag content : String) : Token := Token.mk "heading_open" tag content [] none none ""

def inlineTok (children : List Token) : Token := Token.mk "inline" "" "" [] (some children) none ""

def headingCloseTok : Token := Token.mk "heading_close" "" "" [] none none ""

def hrTok (content : String) : Token := Token.mk "hr" "" content [] none none ""

/-- A plain text inline token. -/
def textTok (s : String) : Token := Token.mk "text" "" s [] none none ""

/-- The empty options object (a call with no options). -/
def noOptions : ConversionOptions := ⟨none, none, none, none, none, none⟩

/-- Options selecting the `comment` preset and nothing else. -/
def commentOptions : ConversionOptions := ⟨some .comment, none, none, none, none, none⟩

/-- A representative local-id source (any injective-enough opaque strings). -/
def defaultGen : Nat → String := fun n => "task-" ++ toString n

/-- The context a conversion call builds for the block parser from user
options: resolved options plus the active preset. -/
def mkBlockCtx (options : ConversionOptions) (gen : Nat → String) : BlockCtx :=
  { options := resolveOptions options, preset := resolvedPreset options, gen }

/-- Options used by the C2 counterexample: `story` preset with `useHeadings`
explicitly off, `maxHeadingLevel` 2 and `strictMode` on. -/
def c2Options : ConversionOptions :=
  ⟨some .story, some false, some 2, none, some true, none⟩

/-- A structural token with only a type tag. -/
def bareTok (t : String) : Token := Token.mk t "" "" [] none none ""

/-- The markdown-it token stream of a one-header-one-cell table. -/
def c5TableTokens : List Token :=
  [bareTok "table_open", bareTok "thead_open", bareTok "tr_open",
   bareTok "th_open", inlineTok [textTok "H1"], bareTok "th_close",
   bareTok "tr_close", bareTok "thead_close",
   bareTok "tbody_open", bareTok "tr_open",
   bareTok "td_open", inlineTok [textTok "C1"], bareTok "td_close",
   bareTok "tr_close", bareTok "tbody_close", bareTok "table_close"]

/-- The rows the table builder assembles from `c5TableTokens`. -/
def c5Rows : List ADFTableRow :=
  [tableRow [tableHeader [paragraph [text "H1" []]]],
   tableRow [tableCell [paragraph [text "C1" []]]]]

/-- A block-parser context for the `comment` preset with `warnOnRiskyNodes`
switched on directly. -/
def riskyCommentCtx : BlockCtx :=
  { options := ⟨false, 6, false, false, "text", true⟩,
    preset := ContextPreset.comment, gen := defaultGen }

/-- A fenced code token. -/
def fenceTok (content info : String) : Token := Token.mk "fence" "" content [] none none info

/-- Token stream of one list item holding a paragraph and two fenced code
blocks (both fences must be dropped from the regular item). -/
def c9Tokens : List Token :=
  [bareTok "list_item_open", bareTok "paragraph_open", inlineTok [textTok "X"],
   bareTok "paragraph_close", fenceTok "y = 1\n" "py", fenceTok "z = 2\n" "",
   bareTok "list_item_close"]

/-- Scan of the list body: the in-order sequence of parsed items, each tagged
with its task classification, without any grouping (the abstract item
sequence that `parseList` groups). -/
def scanListItems (ctx : BlockCtx) (fuel : Nat) (tokens : List Token) (i : Nat)
    (closeType : String) (listType : String) (st : BState) :
    BRes (List (Bool × ADFListItem × ADFTaskItem) × Nat × BState) :=
  match fuel with
  | 0 => none
  | fuel + 1 =>
    match tokens.get? i with
    | none => some (.ok ([], i, st))
    | some tok =>
      if tok.ttype == closeType then some (.ok ([], i, st))
      else if tok.ttype == "list_item_open" then
        bres_bind (parseListItem ctx fuel tokens i
            (listType == "bullet" && isTaskListItem tokens i) st)
          (fun r => bres_bind
            (scanListItems ctx fuel tokens r.2.1 closeType listType r.2.2)
            (fun rest => some (.ok ((listType == "bullet" && isTaskListItem tokens i,
              r.1.1, r.1.2) :: rest.1, rest.2.1, rest.2.2))))
      else scanListItems ctx fuel tokens (i + 1) closeType listType st

/-- The one-item segment of a classified item. -/
def singleSeg (x : Bool × ADFListItem × ADFTaskItem) : ListSegment :=
  if x.1 then ListSegment.task [x.2.2] else ListSegment.regular [x.2.1]

/-- Concatenation of two same-classification segments (left-biased on a
classification mismatch, which never occurs in use). -/
def segConcat : ListSegment → ListSegment → ListSegment
  | ListSegment.task xs, ListSegment.task ys => ListSegment.task (xs ++ ys)
  | ListSegment.regular xs, ListSegment.regular ys => ListSegment.regular (xs ++ ys)
  | a, _ => a

/-- Merge a segment onto the front of a chunk list: it joins the first chunk
when the classification matches, otherwise it is prepended as its own chunk
(and dropped when empty). -/
def consolidate (seg : ListSegment) : List ListSegment → List ListSegment
  | [] => if seg.isEmptySeg then [] else [seg]
  | c :: rest =>
    if c.isTask == seg.isTask then segConcat seg c :: rest
    else if seg.isEmptySeg then c :: rest
    else seg :: c :: rest

/-- Spec-side grouping: split the classified item sequence into maximal runs
of consecutive items with the same classification, in order. -/
def chunkItems : List (Bool × ADFListItem × ADFTaskItem) → List ListSegment
  | [] => []
  | x :: rest => consolidate (singleSeg x) (chunkItems rest)

/-- The grouping state machine of `parseListLoop`, replayed over an abstract
item sequence: `acc` are the closed segments, `cur` the open one. -/
def groupFold (acc : List ListSegment) (cur : Option ListSegment) :
    List (Bool × ADFListItem × ADFTaskItem) → List ListSegment
  | [] => flushSegments acc cur
  | x :: rest =>
    groupFold
      (match cur with
       | none => acc
       | some seg => if seg.isTask == x.1 then acc else pushSegment acc seg)
      (some (segAppendItem
        (match cur with
         | none => if x.1 then ListSegment.task [] else ListSegment.regular []
         | some seg =>
           if seg.isTask == x.1 then seg
           else if x.1 then ListSegment.task [] else ListSegment.regular [])
        x.2.1 x.2.2)) rest

/-- Token stream of `1. Z` as an ordered list. -/
def c6Tokens : List Token :=
  [bareTok "ordered_list_open", bareTok "list_item_open", bareTok "paragraph_open",
   inlineTok [textTok "Z"], bareTok "paragraph_close", bareTok "list_item_close",
   bareTok "ordered_list_close"]

/-! ## The line-based converter (`src/converter.ts`, class `MarkdownConverter`)

`parseInlineMarkdown` is imported there from `utils/inline-parser` but is
absent from the repository snapshot, so it is kept abstract: every context
carries an arbitrary `inlineParse : String → List ADFInline`, and the theorems
below hold for all of them. -/

/-- The converter context: resolved options, the abstract inline parser, and
the local-id oracle standing for `generateLocalId`. -/
structure MCtx where
  options : ResolvedOptions
  inlineParse : String → List ADFInline
  gen : Nat → String

/-- Draw a fresh local id in the line-based converter. -/
def mcFreshId (ctx : MCtx) (st : BState) : String × BState :=
  (ctx.gen st.nextId, { st with nextId := st.nextId + 1 })

/-- Model of the regex fragment of a backtracking suffix match: the greedy
whitespace run followed by a non-empty remainder, as matched by the JS
engine (when the whole remainder is whitespace, the engine backtracks and the
captured group is the final whitespace character). -/
def matchSpacePlusRest : List Char → Option (List Char)
  | [] => none
  | c :: rest =>
    if c.isWhitespace then
      match rest.dropWhile Char.isWhitespace with
      | t :: ts => some (t :: ts)
      | [] =>
        match rest with
        | [] => none
        | r :: rs => some [List.getLast (r :: rs) (by simp)]
    else none

/-- Model of the exec of the heading pattern on a line: the leading run of
hash characters (one to six), at least one whitespace, then the captured
non-empty remainder. -/
def headingMatch (line : String) : Option (Nat × String) :=
  let cs := line.toList
  let n := (cs.takeWhile (fun c => c == '#')).length
  if 1 ≤ n ∧ n ≤ 6 then
    match matchSpacePlusRest (cs.drop n) with
    | some t => some (n, String.mk t)
    | none => none
  else none

/-- Shared head of the task-item patterns: optional leading whitespace, a
dash, at least one whitespace, then a bracketed checkbox character; returns
the checkbox character and the remainder after the closing bracket. -/
def taskHead (cs : List Char) : Option (Char × List Char) :=
  match cs.dropWhile Char.isWhitespace with
  | '-' :: rest =>
    if (rest.takeWhile Char.isWhitespace).isEmpty then none
    else match rest.dropWhile Char.isWhitespace with
      | '[' :: c :: ']' :: rest2 =>
        if c == ' ' || c == 'x' || c == 'X' then some (c, rest2) else none
      | _ => none
  | _ => none

/-- Model of the test of the task-list trigger pattern. -/
def taskTrigger (line : String) : Bool :=
  match taskHead line.toList with
  | some (_, rest2) => !(rest2.takeWhile Char.isWhitespace).isEmpty
  | none => false

/-- Model of the exec of the full task-item pattern: checked flag from the
lowercased checkbox character, and the captured item text. -/
def taskMatch (line : String) : Option (Bool × String) :=
  match taskHead line.toList with
  | some (c, rest2) =>
    match matchSpacePlusRest rest2 with
    | some t => some (c.toLower == 'x', String.mk t)
    | none => none
  | none => none

/-- Shared head of the bullet patterns: optional whitespace then a dash or an
asterisk; returns the remainder. -/
def bulletHead (cs : List Char) : Option (List Char) :=
  match cs.dropWhile Char.isWhitespace with
  | c :: rest => if c == '-' || c == '*' then some rest else none
  | [] => none

/-- Model of the test of the unordered-list trigger pattern. -/
def bulletTrigger (line : String) : Bool :=
  match bulletHead line.toList with
  | some rest => !(rest.takeWhile Char.isWhitespace).isEmpty
  | none => false

/-- Model of the exec of the bullet item pattern with its captured text. -/
def bulletMatch (line : String) : Option String :=
  match bulletHead line.toList with
  | some rest => (matchSpacePlusRest rest).map String.mk
  | none => none

/-- Shared head of the ordered patterns: optional whitespace, at least one
digit, then a dot; returns the remainder. -/
def orderedHead (cs : List Char) : Option (List Char) :=
  let rest := cs.dropWhile Char.isWhitespace
  if (rest.takeWhile Char.isDigit).isEmpty then none
  else match rest.dropWhile Char.isDigit with
    | '.' :: rest2 => some rest2
    | _ => none

/-- Model of the test of the ordered-list trigger pattern. -/
def orderedTrigger (line : String) : Bool :=
  match orderedHead line.toList with
  | some rest => !(rest.takeWhile Char.isWhitespace).isEmpty
  | none => false

/-- Model of the exec of the ordered item pattern with its captured text. -/
def orderedMatch (line : String) : Option String :=
  match orderedHead line.toList with
  | some rest => (matchSpacePlusRest rest).map String.mk
  | none => none

/-- Model of the test of the horizontal-rule pattern on the trimmed line: at
least three characters, all dashes, asterisks or underscores. -/
def isHrLine (line : String) : Bool :=
  let cs := line.toList
  if 3 ≤ cs.length then cs.all (fun c => c == '-' || c == '*' || c == '_') else false

/-- Model of the test of the table separator pattern: a pipe, then at least
one whitespace / dash / colon / pipe character followed by another pipe
(after greedy backtracking this holds exactly when the class run after the
initial pipe contains a pipe beyond its first character). -/
def tableSepCheck (line : String) : Bool :=
  match line.toList with
  | '|' :: rest =>
    match rest.takeWhile (fun c => c.isWhitespace || c == '-' || c == ':' || c == '|') with
    | [] => false
    | _ :: tail => tail.contains '|'
  | _ => false

/-- Model of the replace removing one leading and one trailing pipe. -/
def stripOuterPipes (cs : List Char) : List Char :=
  let a := match cs with
    | '|' :: rest => rest
    | _ => cs
  match a.getLast? with
  | some '|' => a.dropLast
  | _ => a

/-- Split a string on a separator character, JS-style (an empty input yields
one empty field). -/
def splitCharAux (sep : Char) (cur : List Char) : List Char → List String
  | [] => [String.mk cur.reverse]
  | c :: cs =>
    if c == sep then String.mk cur.reverse :: splitCharAux sep [] cs
    else splitCharAux sep (c :: cur) cs

/-- Split a string on a separator character. -/
def splitChar (sep : Char) (s : String) : List String := splitCharAux sep [] s.toList

/-- Model of `MarkdownConverter.parseTableRow`: strip the outer pipes, trim,
split on pipes, and inline-parse each trimmed cell. -/
def parseTableRowMC (ip : String → List ADFInline) (line : String) : List (List ADFInline) :=
  let content := jsTrim (String.mk (stripOuterPipes line.toList))
  (splitChar '|' content).map (fun cell => ip (jsTrim cell))

/-- Data-row loop of `MarkdownConverter.parseTable` over the remaining lines:
consume while the trimmed line starts with a pipe. -/
def collectTableRowsMC (ip : String → List ADFInline) : List String → List ADFTableRow × Nat
  | [] => ([], 0)
  | l :: ls =>
    let t := jsTrim l
    if strStartsWith t "|" then
      let r := collectTableRowsMC ip ls
      (tableRow ((parseTableRowMC ip t).map (fun cell => tableCell [paragraph cell])) :: r.1,
        r.2 + 1)
    else ([], 0)

/-- Model of `MarkdownConverter.parseTable`: null unless the trimmed first
line starts with a pipe and the second line passes the separator test; else
one header row from the first line and data rows until a line without a
leading pipe. -/
def parseTableMC (ip : String → List ADFInline) (lines : List String) (i : Nat) :
    Option (ADFBlock × Nat) :=
  match lines.get? i with
  | none => none
  | some l0 =>
    let firstLine := jsTrim l0
    if !(strStartsWith firstLine "|") then none
    else match lines.get? (i + 1) with
      | none => none
      | some l1 =>
        if !(tableSepCheck (jsTrim l1)) then none
        else
          let headerRow := tableRow ((parseTableRowMC ip firstLine).map
            (fun cell => tableHeader [paragraph cell]))
          let r := collectTableRowsMC ip (lines.drop (i + 2))
          some (tableNode (headerRow :: r.1), i + 2 + r.2)

/-- Code-line loop of `MarkdownConverter.parseCodeBlock`: collect lines until
a closing fence (consumed) or the end of input; returns the collected lines
and the number of lines consumed. -/
def collectCodeMC : List String → List String × Nat
  | [] => ([], 0)
  | l :: ls =>
    if strStartsWith l "```" then ([], 1)
    else
      let r := collectCodeMC ls
      (l :: r.1, r.2 + 1)

/-- Model of `MarkdownConverter.parseCodeBlock`: language from the rest of
the fence line (falling back to the default when empty), code lines joined
with newlines. -/
def parseCodeBlockMC (opts : ResolvedOptions) (lines : List String) (i : Nat) :
    ADFBlock × Nat :=
  let firstLine := match lines.get? i with
    | some l => l
    | none => ""
  let lt := jsTrim (String.mk (firstLine.toList.drop 3))
  let language := if lt == "" then opts.defaultCodeLanguage else lt
  let r := collectCodeMC (lines.drop (i + 1))
  (codeBlock (String.intercalate "\n" r.1) language, i + 1 + r.2)

/-- Item loop of `MarkdownConverter.parseTaskList` over the remaining lines:
consume while the full task pattern matches, generating one local id per
item. -/
def collectTasksMC (ctx : MCtx) : List String → BState → List ADFTaskItem × Nat × BState
  | [], st => ([], 0, st)
  | l :: ls, st =>
    match taskMatch l with
    | none => ([], 0, st)
    | some (checked, txt) =>
      let idSt := mcFreshId ctx st
      let r := collectTasksMC ctx ls idSt.2
      (taskItem (ctx.inlineParse txt) checked idSt.1 :: r.1, r.2.1 + 1, r.2.2)

/-- Model of `MarkdownConverter.parseTaskList`: the collected items wrapped
in a task list whose own local id is generated last. -/
def parseTaskListMC (ctx : MCtx) (lines : List String) (i : Nat) (st : BState) :
    ADFBlock × Nat × BState :=
  let r := collectTasksMC ctx (lines.drop i) st
  let idSt := mcFreshId ctx r.2.2
  (taskList r.1 idSt.1, i + r.2.1, idSt.2)

/-- Item loop of `MarkdownConverter.parseList`: consume while the item
pattern of the list type matches. -/
def collectItemsMC (ip : String → List ADFInline) (isBullet : Bool) :
    List String → List ADFListItem × Nat
  | [] => ([], 0)
  | l :: ls =>
    match (if isBullet then bulletMatch l else orderedMatch l) with
    | none => ([], 0)
    | some txt =>
      let r := collectItemsMC ip isBullet ls
      (listItem [paragraph (ip txt)] :: r.1, r.2 + 1)

/-- Model of `MarkdownConverter.parseList`. -/
def parseListMC (ip : String → List ADFInline) (isBullet : Bool) (lines : List String)
    (i : Nat) : ADFBlock × Nat :=
  let r := collectItemsMC ip isBullet (lines.drop i)
  ((if isBullet then bulletList r.1 else orderedList r.1), i + r.2)

/-- Quote-line loop of `MarkdownConverter.parseBlockQuote`: consume while the
line starts with a marker, stripping the marker and trimming. -/
def collectQuoteMC : List String → List String × Nat
  | [] => ([], 0)
  | l :: ls =>
    if strStartsWith l ">" then
      let r := collectQuoteMC ls
      (jsTrim (String.mk (l.toList.drop 1)) :: r.1, r.2 + 1)
    else ([], 0)

/-- The branch taken by the body of the `convert` line loop for one line, in
the exact order of the source cascade (blank skip, code fence, heading,
table — falling through when `parseTable` returns null —, task list, bullet
list, ordered list, block quote, horizontal rule, paragraph). -/
inductive LineKind where
  | blank
  | fence
  | headingLine (level : Nat) (txt : String)
  | tableLine (node : ADFBlock) (next : Nat)
  | taskLine
  | bulletLine
  | orderedLine
  | quoteLine
  | hrLine
  | paraLine

/-- Classify one line of the `convert` loop. -/
def classifyLine (ip : String → List ADFInline) (lines : List String) (i : Nat)
    (line : String) : LineKind :=
  if jsTrim line == "" then .blank
  else if strStartsWith line "```" then .fence
  else match headingMatch line with
  | some (n, t) => .headingLine n t
  | none =>
    match (if strStartsWith (jsTrim line) "|" then parseTableMC ip lines i else none) with
    | some (node, next) => .tableLine node next
    | none =>
      if taskTrigger line then .taskLine
      else if bulletTrigger line then .bulletLine
      else if orderedTrigger line then .orderedLine
      else if strStartsWith line ">" then .quoteLine
      else if isHrLine (jsTrim line) then .hrLine
      else .paraLine

/-- Prepend a block to a fueled line-loop result. -/
def omap_cons (blk : ADFBlock) : Option (List ADFBlock × BState) →
    Option (List ADFBlock × BState)
  | none => none
  | some (bs, st) => some (blk :: bs, st)

mutual
/-- Model of `MarkdownConverter.convert`: empty or whitespace-only input is
one empty paragraph; otherwise the input is split on newlines and the line
loop runs (fueled; `none` means the fuel ran out). -/
def MarkdownConverter.convert (ctx : MCtx) (fuel : Nat) (markdown : String)
    (st : BState) : Option (ADFDocument × BState) :=
  match fuel with
  | 0 => none
  | fuel + 1 =>
    if jsTrim markdown == "" then some (doc [paragraph []], st)
    else
      match MarkdownConverter.convertLines ctx fuel (splitLines markdown) 0 st with
      | none => none
      | some (blocks, st2) => some (doc blocks, st2)

/-- The while loop of `MarkdownConverter.convert` over the line array. -/
def MarkdownConverter.convertLines (ctx : MCtx) (fuel : Nat) (lines : List String)
    (i : Nat) (st : BState) : Option (List ADFBlock × BState) :=
  match fuel with
  | 0 => none
  | fuel + 1 =>
    match lines.get? i with
    | none => some ([], st)
    | some line =>
      match classifyLine ctx.inlineParse lines i line with
      | .blank => MarkdownConverter.convertLines ctx fuel lines (i + 1) st
      | .fence =>
        let r := parseCodeBlockMC ctx.options lines i
        omap_cons r.1 (MarkdownConverter.convertLines ctx fuel lines r.2 st)
      | .headingLine level txt =>
        omap_cons
          (if ctx.options.useHeadings && decide (level ≤ ctx.options.maxHeadingLevel) then
            heading level (ctx.inlineParse txt)
          else paragraph [text txt [ADFMark.strong]])
          (MarkdownConverter.convertLines ctx fuel lines (i + 1) st)
      | .tableLine node next =>
        omap_cons node (MarkdownConverter.convertLines ctx fuel lines next st)
      | .taskLine =>
        let r := parseTaskListMC ctx lines i st
        omap_cons r.1 (MarkdownConverter.convertLines ctx fuel lines r.2.1 r.2.2)
      | .bulletLine =>
        let r := parseListMC ctx.inlineParse true lines i
        omap_cons r.1 (MarkdownConverter.convertLines ctx fuel lines r.2 st)
      | .orderedLine =>
        let r := parseListMC ctx.inlineParse false lines i
        omap_cons r.1 (MarkdownConverter.convertLines ctx fuel lines r.2 st)
      | .quoteLine =>
        let q := collectQuoteMC (lines.drop i)
        match MarkdownConverter.convert ctx fuel (String.intercalate "\n" q.1) st with
        | none => none
        | some (d, st2) =>
          omap_cons (blockQuote d.content)
            (MarkdownConverter.convertLines ctx fuel lines (i + q.2) st2)
      | .hrLine =>
        MarkdownConverter.convertLines ctx fuel lines (i + 1)
          (addWarning st .unsupported_feature "Horizontal rules are not widely supported"
            (some (i + 1)) (some line))
      | .paraLine =>
        omap_cons (paragraph (ctx.inlineParse line))
          (MarkdownConverter.convertLines ctx fuel lines (i + 1) st)
end

mutual
/-- Erase the generated local ids of taskList and taskItem nodes. -/
def eraseBlock : ADFBlock → ADFBlock
  | .paragraph c => .paragraph c
  | .heading l c => .heading l c
  | .bulletList items => .bulletList (eraseItems items)
  | .orderedList items => .orderedList (eraseItems items)
  | .taskList _ items => .taskList "" (eraseTasks items)
  | .codeBlock l c => .codeBlock l c
  | .blockQuote c => .blockQuote (eraseBlocks c)
  | .rule => .rule
  | .panel p c => .panel p (eraseBlocks c)
  | .table a rows => .table a (eraseRows rows)

/-- Erase local ids in a block list. -/
def eraseBlocks : List ADFBlock → List ADFBlock
  | [] => []
  | b :: bs => eraseBlock b :: eraseBlocks bs

/-- Erase local ids in list items. -/
def eraseItems : List ADFListItem → List ADFListItem
  | [] => []
  | .mk c :: is => .mk (eraseBlocks c) :: eraseItems is

/-- Erase local ids of task items. -/
def eraseTasks : List ADFTaskItem → List ADFTaskItem
  | [] => []
  | .mk _ s c :: is => .mk "" s c :: eraseTasks is

/-- Erase local ids in table rows. -/
def eraseRows : List ADFTableRow → List ADFTableRow
  | [] => []
  | .mk cells :: rs => .mk (eraseCells cells) :: eraseRows rs

/-- Erase local ids in table cells. -/
def eraseCells : List ADFTableCellNode → List ADFTableCellNode
  | [] => []
  | .header c :: cs => .header (eraseBlocks c) :: eraseCells cs
  | .cell c :: cs => .cell (eraseBlocks c) :: eraseCells cs
end

mutual
/-- Whether a block contains no task list anywhere. -/
def noTaskBlock : ADFBlock → Bool
  | .paragraph _ => true
  | .heading _ _ => true
  | .bulletList items => noTaskItems items
  | .orderedList items => noTaskItems items
  | .taskList _ _ => false
  | .codeBlock _ _ => true
  | .blockQuote c => noTaskBlocks c
  | .rule => true
  | .panel _ c => noTaskBlocks c
  | .table _ rows => noTaskRows rows

/-- Whether a block list contains no task list. -/
def noTaskBlocks : List ADFBlock → Bool
  | [] => true
  | b :: bs => noTaskBlock b && noTaskBlocks bs

/-- Whether list items contain no task list. -/
def noTaskItems : List ADFListItem → Bool
  | [] => true
  | .mk c :: is => noTaskBlocks c && noTaskItems is

/-- Whether table rows contain no task list. -/
def noTaskRows : List ADFTableRow → Bool
  | [] => true
  | .mk cells :: rs => noTaskCells cells && noTaskRows rs

/-- Whether table cells contain no task list. -/
def noTaskCells : List ADFTableCellNode → Bool
  | [] => true
  | .header c :: cs => noTaskBlocks c && noTaskCells cs
  | .cell c :: cs => noTaskBlocks c && noTaskCells cs
end

/-- Relation between two line-loop runs: both ran out of fuel, or both
succeeded with erasure-equal blocks and identical states. -/
def linesRel : Option (List ADFBlock × BState) → Option (List ADFBlock × BState) → Prop
  | none, none => True
  | some (bs1, st1), some (bs2, st2) => eraseBlocks bs1 = eraseBlocks bs2 ∧ st1 = st2
  | _, _ => False

/-- Relation between two converter runs: both ran out of fuel, or both
succeeded with erasure-equal documents and identical states. -/
def docRel : Option (ADFDocument × BState) → Option (ADFDocument × BState) → Prop
  | none, none => True
  | some (d1, st1), some (d2, st2) => eraseBlocks d1.content = eraseBlocks d2.content ∧ st1 = st2
  | _, _ => False

/-- A concrete inline parser for witnesses: one plain text node per string. -/
def ip0 : String → List ADFInline := fun s => [text s []]

/-- The default resolved options used by witnesses. -/
def opts0 : ResolvedOptions := resolveOptions noOptions

/-- A second id oracle, distinct from `defaultGen`. -/
def gen2b : Nat → String := fun n => "id-" ++ toString n

/-! ## Theorems -/

/-- The pairwise comparison performed by `areMarksEqual` coincides with
structural equality of marks. -/
theorem markPair_eq_iff (a b : ADFMark) :
    (markType a == markType b && markAttrsEqual a b) = true ↔ a = b := by
  cases a <;> cases b <;> simp [markType, markAttrsEqual]

/-- The source comparison `areMarksEqual` coincides with structural equality
of mark lists. -/
theorem areMarksEqual_iff (l r : List ADFMark) : areMarksEqual l r = true ↔ l = r := by
  induction l generalizing r with
  | nil => cases r <;> simp [areMarksEqual]
  | cons a as ih =>
    cases r with
    | nil => simp [areMarksEqual]
    | cons b bs =>
      have hstep : areMarksEqual (a :: as) (b :: bs)
          = ((markType a == markType b && markAttrsEqual a b) && areMarksEqual as bs) := rfl
      rw [hstep, Bool.and_eq_true, markPair_eq_iff, ih]
      simp

/-- The violation relation only looks at the mark lists of text nodes. -/
theorem identicalMarkTextPair_text_iff (x : ADFInline) (t1 t2 : String) (m : List ADFMark) :
    (identicalMarkTextPair x (.text t1 m) ↔ identicalMarkTextPair x (.text t2 m)) := by
  cases x <;> simp [identicalMarkTextPair]

/-- Appending an element that is compatible with the last element preserves
`Chain'`. -/
theorem chain'_snocR {R : α → α → Prop} {l : List α} {y : α} (h : List.Chain' R l)
    (hy : ∀ x, l.getLast? = some x → R x y) : List.Chain' R (l ++ [y]) := by
  rw [List.chain'_append]
  refine ⟨h, List.chain'_singleton _, ?_⟩
  intro x hx z hz
  simp only [List.head?_cons, Option.mem_def, Option.some_inj] at hz
  subst hz
  exact hy x (Option.mem_def.mp hx)

/-- `pushText` preserves the no-adjacent-identical-text invariant. -/
theorem chain'_pushText (v : String) (ms : List ADFMark) {nodes : List ADFInline}
    (h : List.Chain' (fun a b => ¬ identicalMarkTextPair a b) nodes) :
    List.Chain' (fun a b => ¬ identicalMarkTextPair a b) (pushText nodes v ms) := by
  unfold pushText
  by_cases hv : (v == "") = true
  · simpa [hv] using h
  · simp only [hv, Bool.false_eq_true, if_false]
    cases hlast : nodes.getLast? with
    | none =>
      apply chain'_snocR h
      intro x hx
      rw [hlast] at hx
      exact absurd hx (by simp)
    | some last =>
      cases last with
      | text t m =>
        by_cases hm : areMarksEqual m ms = true
        · simp only [hm, if_true]
          have hne : nodes ≠ [] := by
            intro hnil
            rw [hnil] at hlast
            simp at hlast
          have hdecomp : nodes.dropLast ++ [ADFInline.text t m] = nodes := by
            conv_rhs => rw [← List.dropLast_append_getLast hne]
            have h2 := List.getLast?_eq_getLast nodes hne
            rw [h2] at hlast
            injection hlast with h3
            rw [h3]
          rw [← hdecomp] at h
          rw [List.chain'_append] at h
          apply chain'_snocR h.1
          intro x hx
          have hxR := h.2.2 x (Option.mem_def.mpr hx) (ADFInline.text t m) (by simp)
          rcases (areMarksEqual_iff m ms).mp hm with rfl
          show ¬ identicalMarkTextPair x (text (t ++ v) m)
          exact fun hc => hxR ((identicalMarkTextPair_text_iff x (t ++ v) t m).mp hc)
        · simp only [hm, Bool.false_eq_true, if_false]
          apply chain'_snocR h
          intro x hx
          rw [hlast] at hx
          injection hx with hx'
          subst hx'
          show ¬ identicalMarkTextPair (ADFInline.text t m) (text v ms)
          simp [identicalMarkTextPair, text, hm]
      | hardBreak =>
        apply chain'_snocR h
        intro x hx
        rw [hlast] at hx
        injection hx with hx'
        subst hx'
        simp [identicalMarkTextPair, text]
      | inlineCard u =>
        apply chain'_snocR h
        intro x hx
        rw [hlast] at hx
        injection hx with hx'
        subst hx'
        simp [identicalMarkTextPair, text]
      | mention i mt =>
        apply chain'_snocR h
        intro x hx
        rw [hlast] at hx
        injection hx with hx'
        subst hx'
        simp [identicalMarkTextPair, text]
      | emoji e =>
        apply chain'_snocR h
        intro x hx
        rw [hlast] at hx
        injection hx with hx'
        subst hx'
        simp [identicalMarkTextPair, text]

/-- Every step of the inline loop preserves the no-adjacent-identical-text
invariant. -/
theorem chain'_inlineStep (opts : InlineParseOptions) (acc : InlineAcc) (tok : Token)
    (h : List.Chain' (fun a b => ¬ identicalMarkTextPair a b) acc.nodes) :
    List.Chain' (fun a b => ¬ identicalMarkTextPair a b) (inlineStep opts acc tok).nodes := by
  have hhb : ∀ {ns : List ADFInline},
      List.Chain' (fun a b => ¬ identicalMarkTextPair a b) ns →
      List.Chain' (fun a b => ¬ identicalMarkTextPair a b) (ns ++ [hardBreak]) := by
    intro ns hns
    apply chain'_snocR hns
    intro x _
    cases x <;> simp [identicalMarkTextPair, hardBreak]
  unfold inlineStep
  split <;> (try split) <;> (try split) <;> (try dsimp only) <;>
    first
      | exact h
      | exact chain'_pushText _ _ h
      | exact hhb h

/-- The inline loop as a whole preserves the invariant. -/
theorem chain'_inlineFold (opts : InlineParseOptions) (ts : List Token) (acc : InlineAcc)
    (h : List.Chain' (fun a b => ¬ identicalMarkTextPair a b) acc.nodes) :
    List.Chain' (fun a b => ¬ identicalMarkTextPair a b)
      (ts.foldl (inlineStep opts) acc).nodes := by
  induction ts generalizing acc with
  | nil => simpa using h
  | cons t ts ih =>
    simp only [List.foldl_cons]
    exact ih _ (chain'_inlineStep opts acc t h)

/-- C3: for every inline token sequence and every options bundle, the node
sequence returned by `parseInlineTokens` never contains two adjacent text
nodes whose mark lists are identical (same types, same attribute values, same
order, as compared by `areMarksEqual`); such runs are merged by
concatenation inside `pushText`. -/
theorem claim_C3_no_adjacent_identical_text (tokens : Option (List Token))
    (opts : InlineParseOptions) :
    List.Chain' (fun a b => ¬ identicalMarkTextPair a b)
      (parseInlineTokens tokens opts).nodes := by
  unfold parseInlineTokens
  cases tokens with
  | none => simp
  | some ts =>
    by_cases hts : ts.isEmpty
    · simp [hts]
    · simp only [hts, Bool.false_eq_true, if_false]
      exact chain'_inlineFold opts ts _ (by simp)

/-- Lemma: `removeFirstP` is the identity when nothing satisfies the
predicate. -/
theorem removeFirstP_of_none (p : α → Bool) (l : List α)
    (h : ∀ a ∈ l, p a = false) : removeFirstP p l = l := by
  induction l with
  | nil => rfl
  | cons a as ih =>
    have ha := h a (by simp)
    simp only [removeFirstP, ha, Bool.false_eq_true, if_false]
    rw [ih (fun x hx => h x (by simp [hx]))]

/-- C8 counterexample: the close of an href-less link is not a no-op — it pops
the enclosing link mark, so the following text loses the outer link.  Under
the claim the text `z` would still carry the `https://a` link mark; the
resolver actually emits it with no marks. -/
theorem claim_C8_counterexample :
    (parseInlineTokens (some c8Tokens)
        { preserveLineBreaks := false, stripTaskCheckbox := false }).nodes
      = [ADFInline.text "z" []] ∧
    (parseInlineTokens (some c8Tokens)
        { preserveLineBreaks := false, stripTaskCheckbox := false }).nodes
      ≠ [ADFInline.text "z" [ADFMark.link "https://a" none]] := by
  constructor
  · rfl
  · decide

/-- C8 (amended): the inline resolver tracks no per-link had-href flag; a
`link_close` token always removes the nearest-from-the-end `link` mark from
the active-mark list via `popMark` (so it does pop an enclosing link mark when
the matching open carried no href), and it is a no-op exactly when no link
mark is active at all. -/
theorem claim_C8_link_close_pops_nearest (opts : InlineParseOptions) (acc : InlineAcc)
    (tok : Token) (h : tok.ttype = "link_close") :
    (inlineStep opts acc tok).marks = popMark acc.marks "link" ∧
    (inlineStep opts acc tok).nodes = acc.nodes ∧
    (∀ marks : List ADFMark, (∀ m ∈ marks, markType m ≠ "link") →
      popMark marks "link" = marks) := by
  refine ⟨?_, ?_, ?_⟩
  · unfold inlineStep
    rw [h]
    rfl
  · unfold inlineStep
    rw [h]
    rfl
  · intro marks hm
    unfold popMark
    rw [removeFirstP_of_none _ _ ?hnone, List.reverse_reverse]
    case hnone =>
      intro a ha
      have := hm a (by simpa using ha)
      simpa using this

/-- `bres_bind` never errors when neither side does. -/
theorem bres_bind_no_error {x : BRes α} {f : α → BRes β}
    (hx : ∀ e, x ≠ some (.error e)) (hf : ∀ v e, f v ≠ some (.error e)) :
    ∀ e, bres_bind x f ≠ some (.error e) := by
  intro e hc
  cases hxval : x with
  | none => rw [hxval] at hc; exact Option.noConfusion (show (none : BRes β) = _ from hc)
  | some r =>
    cases r with
    | error e2 => exact hx e2 hxval
    | ok v =>
      rw [hxval] at hc
      exact hf v e hc

/-- A continuation that immediately returns `ok` never errors. -/
theorem ok_cont_no_error (g : α → β) : ∀ (v : α) (e : ConversionError),
    (fun v => some (Except.ok (g v)) : α → BRes β) v ≠ some (.error e) := by
  intro v e hc
  simp at hc

theorem parseBlockTokens_heading (ctx : BlockCtx) (fuel : Nat) (tag content : String)
    (children : List Token) (st : BState) :
    parseBlockTokens ctx (fuel + 2)
      [headingOpenTok tag content, inlineTok children, headingCloseTok] 0 none st =
    (if (ctx.preset == ContextPreset.story || ctx.preset == ContextPreset.default)
        && ctx.options.useHeadings
        && !decide (getHeadingLevel tag > ctx.options.maxHeadingLevel) then
      some (.ok ([heading (getHeadingLevel tag)
        (if (parseInlineB ctx (some (inlineTok children))).isEmpty then [text "" []]
         else parseInlineB ctx (some (inlineTok children)))], 3, st))
    else if ctx.options.strictMode &&
        (!(ctx.preset == ContextPreset.story || ctx.preset == ContextPreset.default)
          || (ctx.options.useHeadings
              && decide (getHeadingLevel tag > ctx.options.maxHeadingLevel))) then
      some (.error (createError .unsupported_feature (headingDowngradeReason ctx tag) none
        (some content)))
    else
      some (.ok ([paragraph (applyMarkToInline (parseInlineB ctx (some (inlineTok children)))
          .strong)], 3,
        if !(ctx.preset == ContextPreset.story || ctx.preset == ContextPreset.default)
            || (ctx.options.useHeadings
                && decide (getHeadingLevel tag > ctx.options.maxHeadingLevel)) then
          addWarning st .lossy_conversion
            (headingDowngradeReason ctx tag ++ "; converting to bold text") none (some content)
        else st))) := by
  cases hp : (ctx.preset == ContextPreset.story || ctx.preset == ContextPreset.default) <;>
  cases hu : ctx.options.useHeadings <;>
  cases he : decide (getHeadingLevel tag > ctx.options.maxHeadingLevel) <;>
  cases hs : ctx.options.strictMode <;>
  simp only [parseBlockTokens, List.get?, headingOpenTok, inlineTok, headingCloseTok,
    Token.ttype, hp, hu, he, hs, Bool.and_true, Bool.and_false, Bool.true_and,
    Bool.false_and, Bool.or_true, Bool.or_false, Bool.true_or, Bool.false_or,
    Bool.not_true, Bool.not_false, if_true, if_false, Token.tag, Token.content, getLine,
    Token.srcMap, Option.map_none] <;>
  rfl

theorem parseBlockTokens_hr (ctx : BlockCtx) (fuel : Nat) (content : String) (st : BState) :
    parseBlockTokens ctx (fuel + 2) [hrTok content] 0 none st =
    (if ctx.options.strictMode then
      some (.error (createError .unsupported_feature
        "Horizontal rules are not supported in this context" none (some content)))
    else
      some (.ok ([], 1, addWarning st .unsupported_feature
        "Horizontal rules are not supported in this context" none (some content)))) := by
  cases hs : ctx.options.strictMode <;>
  simp only [parseBlockTokens, List.get?, hrTok, Token.ttype, hs, if_true, if_false] <;>
  rfl

set_option maxHeartbeats 1000000 in
theorem nonstrict_no_error (ctx : BlockCtx) (h : ctx.options.strictMode = false) :
    ∀ fuel : Nat,
      (∀ tokens i endType st e,
        parseBlockTokens ctx fuel tokens i endType st ≠ some (.error e)) ∧
      (∀ tokens i listType st e,
        parseList ctx fuel tokens i listType st ≠ some (.error e)) ∧
      (∀ tokens i closeType listType cur acc st e,
        parseListLoop ctx fuel tokens i closeType listType cur acc st ≠ some (.error e)) ∧
      (∀ tokens i asTask st e,
        parseListItem ctx fuel tokens i asTask st ≠ some (.error e)) ∧
      (∀ tokens i asTask blocks tc tch st e,
        parseListItemLoop ctx fuel tokens i asTask blocks tc tch st ≠ some (.error e)) ∧
      (∀ tokens i st e,
        parseBlockQuote ctx fuel tokens i st ≠ some (.error e)) := by
  intro fuel
  induction fuel with
  | zero =>
    refine ⟨?_, ?_, ?_, ?_, ?_, ?_⟩ <;> intros <;> intro hc
    · unfold parseBlockTokens at hc; exact Option.noConfusion hc
    · unfold parseList at hc; exact Option.noConfusion hc
    · unfold parseListLoop at hc; exact Option.noConfusion hc
    · unfold parseListItem at hc; exact Option.noConfusion hc
    · unfold parseListItemLoop at hc; exact Option.noConfusion hc
    · unfold parseBlockQuote at hc; exact Option.noConfusion hc
  | succ fuel ih =>
    obtain ⟨ih1, ih2, ih3, ih4, ih5, ih6⟩ := ih
    refine ⟨?_, ?_, ?_, ?_, ?_, ?_⟩
    · intro tokens i endType st e hc
      rw [parseBlockTokens] at hc
      split at hc
      · simp at hc
      · split at hc
        · simp at hc
        · split at hc <;>
            first
            | exact bres_bind_no_error (ih1 _ _ _ _) (fun v e => by simp) e hc
            | exact bres_bind_no_error (ih2 _ _ _ _)
                (fun v e => bres_bind_no_error (ih1 _ _ _ _) (fun v e => by simp) e) e hc
            | exact bres_bind_no_error (ih6 _ _ _)
                (fun v e => bres_bind_no_error (ih1 _ _ _ _) (fun v e => by simp) e) e hc
            | exact ih1 _ _ _ _ _ hc
            | skip
          · split at hc  -- heading: canUseHeading if
            · exact bres_bind_no_error (ih1 _ _ _ _) (fun v e => by simp) e hc
            · split at hc  -- strict throw if
              · rename_i hstrict
                rw [h] at hstrict
                simp at hstrict
              · exact bres_bind_no_error (ih1 _ _ _ _) (fun v e => by simp) e hc
          · split at hc  -- table: parseTable match
            · exact Option.noConfusion hc
            · exact bres_bind_no_error (ih1 _ _ _ _) (fun v e => by simp) e hc
          · split at hc  -- hr: strict if
            · rename_i hstrict
              rw [h] at hstrict
              simp at hstrict
            · exact ih1 _ _ _ _ _ hc
    · intro tokens i listType st e hc
      rw [parseList] at hc
      exact bres_bind_no_error (ih3 _ _ _ _ _ _ _) (fun v e => by simp) e hc
    · intro tokens i closeType listType cur acc st e hc
      rw [parseListLoop] at hc
      split at hc
      · simp at hc
      · split at hc
        · simp at hc
        · split at hc
          · exact bres_bind_no_error (ih4 _ _ _ _) (fun v e => ih3 _ _ _ _ _ _ _ _) e hc
          · exact ih3 _ _ _ _ _ _ _ _ hc
    · intro tokens i asTask st e hc
      rw [parseListItem] at hc
      refine bres_bind_no_error (ih5 _ _ _ _ _ _ _) (fun v e => ?_) e hc
      intro hcv
      split at hcv
      · simp at hcv
      · simp at hcv
    · intro tokens i asTask blocks tc tch st e hc
      rw [parseListItemLoop] at hc
      split at hc
      · simp at hc
      · split at hc
        · simp at hc
        · split at hc <;>
            first
            | exact bres_bind_no_error (ih2 _ _ _ _)
                (fun v e => ih5 _ _ _ _ _ _ _ _) e hc
            | exact bres_bind_no_error (ih6 _ _ _)
                (fun v e => ih5 _ _ _ _ _ _ _ _) e hc
            | exact ih5 _ _ _ _ _ _ _ _ hc
            | skip
          · split at hc  -- paragraph_open inner if
            · exact ih5 _ _ _ _ _ _ _ _ hc
            · exact ih5 _ _ _ _ _ _ _ _ hc
          · split at hc  -- table
            · exact Option.noConfusion hc
            · exact ih5 _ _ _ _ _ _ _ _ hc
          · split at hc  -- inline inner if
            · exact ih5 _ _ _ _ _ _ _ _ hc
            · exact ih5 _ _ _ _ _ _ _ _ hc
          · split at hc  -- hr strict if
            · rename_i hstrict
              rw [h] at hstrict
              simp at hstrict
            · exact ih5 _ _ _ _ _ _ _ _ hc
    · intro tokens i st e hc
      rw [parseBlockQuote] at hc
      refine bres_bind_no_error (ih1 _ _ _ _) (fun v e => ?_) e hc
      intro hcv
      split at hcv
      · simp at hcv
      · simp at hcv

/-- C1 counterexample: under the `default` preset (headings off, non-strict) a
heading token is downgraded to a bold paragraph while the warning log stays
empty — the downgrade is silent, contradicting the claim that every non-strict
downgrade appends a LossyConversion warning. -/
theorem claim_C1_counterexample :
    parseBlockTokens (mkBlockCtx noOptions defaultGen) (3 + 2)
        [headingOpenTok "h2" "## H", inlineTok [textTok "H"], headingCloseTok] 0 none
        { warnings := [], nextId := 0 }
      = some (.ok ([paragraph [text "H" [.strong]]], 3,
          { warnings := [], nextId := 0 })) := by
  rw [parseBlockTokens_heading]
  rfl

/-- Helper: the downgrade (non-throwing) evaluation of a heading token. -/
theorem parseBlockTokens_heading_downgrade (ctx : BlockCtx) (fuel : Nat)
    (tag content : String) (children : List Token) (st : BState)
    (hstrict : ctx.options.strictMode = false)
    (hdowngrade : ((ctx.preset == ContextPreset.story || ctx.preset == ContextPreset.default)
        && ctx.options.useHeadings
        && !decide (getHeadingLevel tag > ctx.options.maxHeadingLevel)) = false) :
    parseBlockTokens ctx (fuel + 2)
        [headingOpenTok tag content, inlineTok children, headingCloseTok] 0 none st
      = some (.ok ([paragraph (applyMarkToInline
          (parseInlineB ctx (some (inlineTok children))) .strong)], 3,
          { st with warnings := st.warnings ++
            (if !(ctx.preset == ContextPreset.story || ctx.preset == ContextPreset.default)
                || (ctx.options.useHeadings
                    && decide (getHeadingLevel tag > ctx.options.maxHeadingLevel)) then
              [{ kind := .lossy_conversion,
                 message := headingDowngradeReason ctx tag ++ "; converting to bold text",
                 line := none, markdown := some content }]
            else []) })) := by
  rw [parseBlockTokens_heading]
  rw [hdowngrade]
  simp only [Bool.false_eq_true, if_false, hstrict, Bool.false_and, addWarning]
  split <;> simp

/-- C1 (amended): when a heading is downgraded (non-strict), the block
resolver appends one LossyConversion warning exactly when the downgrade is due
to preset incompatibility or to exceeding `maxHeadingLevel` with `useHeadings`
enabled; a downgrade caused solely by `useHeadings` being off under a
heading-permitting preset appends nothing. -/
theorem claim_C1_downgrade_warning (ctx : BlockCtx) (fuel : Nat) (tag content : String)
    (children : List Token) (st : BState)
    (hstrict : ctx.options.strictMode = false)
    (hdowngrade : ((ctx.preset == ContextPreset.story || ctx.preset == ContextPreset.default)
        && ctx.options.useHeadings
        && !decide (getHeadingLevel tag > ctx.options.maxHeadingLevel)) = false) :
    parseBlockTokens ctx (fuel + 2)
        [headingOpenTok tag content, inlineTok children, headingCloseTok] 0 none st
      = some (.ok ([paragraph (applyMarkToInline
          (parseInlineB ctx (some (inlineTok children))) .strong)], 3,
          { st with warnings := st.warnings ++
            (if !(ctx.preset == ContextPreset.story || ctx.preset == ContextPreset.default)
                || (ctx.options.useHeadings
                    && decide (getHeadingLevel tag > ctx.options.maxHeadingLevel)) then
              [{ kind := .lossy_conversion,
                 message := headingDowngradeReason ctx tag ++ "; converting to bold text",
                 line := none, markdown := some content }]
            else []) })) :=
  parseBlockTokens_heading_downgrade ctx fuel tag content children st hstrict hdowngrade

/-- C1 witness: the comment preset instance of the amended claim, evaluated. -/
theorem claim_C1_downgrade_warning_witness :
    parseBlockTokens (mkBlockCtx commentOptions defaultGen) (0 + 2)
        [headingOpenTok "h2" "## H", inlineTok [textTok "H"], headingCloseTok] 0 none
        { warnings := [], nextId := 0 }
      = some (.ok ([paragraph [text "H" [.strong]]], 3,
          { warnings := [⟨.lossy_conversion,
              "Headings are not supported in the comment context; converting to bold text",
              none, some "## H"⟩], nextId := 0 })) := by
  rw [claim_C1_downgrade_warning (mkBlockCtx commentOptions defaultGen) 0 "h2" "## H"
    [textTok "H"] { warnings := [], nextId := 0 } rfl rfl]
  rfl

/-- C2 counterexample: with `strictMode` set, a heading whose level exceeds
`maxHeadingLevel` does NOT abort when `useHeadings` is off — the run returns a
bold paragraph (and no warning), while the claim asserts an abort for every
strict-mode heading exceeding `maxHeadingLevel`. -/
theorem claim_C2_counterexample :
    parseBlockTokens (mkBlockCtx c2Options defaultGen) (3 + 2)
        [headingOpenTok "h3" "### H", inlineTok [textTok "H"], headingCloseTok] 0 none
        { warnings := [], nextId := 0 }
      = some (.ok ([paragraph [text "H" [.strong]]], 3,
          { warnings := [], nextId := 0 })) := by
  rw [parseBlockTokens_heading]
  rfl

/-- C2 (amended): a conversion aborts — with a structured `ConversionError`
carrying the warning shape, and no node list — exactly when `strictMode` is
set and the block resolver reaches a heading that is preset-incompatible or
that exceeds `maxHeadingLevel` while `useHeadings` is enabled, or a horizontal
rule; with `strictMode` off no token sequence whatsoever makes the resolver
abort. -/
theorem claim_C2_abort_exactly (ctx : BlockCtx) :
    (ctx.options.strictMode = false →
      ∀ fuel tokens i endType st e,
        parseBlockTokens ctx fuel tokens i endType st ≠ some (.error e)) ∧
    (∀ fuel tag content children st,
      (∃ e, parseBlockTokens ctx (fuel + 2)
          [headingOpenTok tag content, inlineTok children, headingCloseTok] 0 none st
        = some (.error e)) ↔
      (ctx.options.strictMode = true ∧
        (¬(ctx.preset = .story ∨ ctx.preset = .default) ∨
          (ctx.options.useHeadings = true
            ∧ getHeadingLevel tag > ctx.options.maxHeadingLevel)))) ∧
    (∀ fuel content st,
      (∃ e, parseBlockTokens ctx (fuel + 2) [hrTok content] 0 none st = some (.error e)) ↔
      ctx.options.strictMode = true) := by
  refine ⟨?_, ?_, ?_⟩
  · intro h fuel tokens i endType st e
    exact (nonstrict_no_error ctx h fuel).1 tokens i endType st e
  · intro fuel tag content children st
    rw [parseBlockTokens_heading]
    cases hp : (ctx.preset == ContextPreset.story || ctx.preset == ContextPreset.default) <;>
    cases hu : ctx.options.useHeadings <;>
    cases he : decide (getHeadingLevel tag > ctx.options.maxHeadingLevel) <;>
    cases hs : ctx.options.strictMode <;>
    simp_all [beq_iff_eq]
  · intro fuel content st
    rw [parseBlockTokens_hr]
    cases hs : ctx.options.strictMode <;> simp [hs]

/-- C2 witness: a strict-mode comment-preset heading aborts, and the same
input does not abort without strict mode. -/
theorem claim_C2_abort_exactly_witness :
    (∃ e, parseBlockTokens
        (mkBlockCtx ⟨some .comment, none, none, none, some true, none⟩ defaultGen) (0 + 2)
        [headingOpenTok "h2" "## H", inlineTok [textTok "H"], headingCloseTok] 0 none
        { warnings := [], nextId := 0 } = some (.error e)) ∧
    (∀ fuel tokens i endType st e,
      parseBlockTokens (mkBlockCtx commentOptions defaultGen) fuel tokens i endType st
        ≠ some (.error e)) := by
  constructor
  · exact ((claim_C2_abort_exactly
      (mkBlockCtx ⟨some .comment, none, none, none, some true, none⟩ defaultGen)).2.1
        0 "h2" "## H" [textTok "H"] { warnings := [], nextId := 0 }).mpr
      ⟨rfl, Or.inl (by decide)⟩
  · exact (claim_C2_abort_exactly (mkBlockCtx commentOptions defaultGen)).1 rfl

/-- C7 counterexample: under `strictMode` with the `comment` preset, a heading
token is neither emitted as a Heading nor as a bold Paragraph — the conversion
aborts — contradicting the unconditional either/or of the claim. -/
theorem claim_C7_counterexample :
    parseBlockTokens
        (mkBlockCtx ⟨some .comment, none, none, none, some true, none⟩ defaultGen) (3 + 2)
        [headingOpenTok "h2" "## H", inlineTok [textTok "H"], headingCloseTok] 0 none
        { warnings := [], nextId := 0 }
      = some (.error ⟨"Headings are not supported in the comment context",
          ⟨.unsupported_feature, "Headings are not supported in the comment context",
            none, some "## H"⟩⟩) := by
  rw [parseBlockTokens_heading]
  rfl

/-- C7 (amended): a heading token is emitted as a real Heading node carrying
its level (h1..h6 mapped to 1..6, other tags clamped to level 1) exactly when
the preset is `story` or `default`, `useHeadings` is set, and the level is at
most `maxHeadingLevel`; in every other case — unless `strictMode` is set and
the downgrade is due to preset incompatibility or to exceeding
`maxHeadingLevel` with `useHeadings` on, in which case the conversion aborts
instead — it is emitted as a Paragraph in which every text run has a Strong
mark appended, an empty heading becoming a single empty text run carrying the
Strong mark. -/
theorem claim_C7_heading_emission (ctx : BlockCtx) (fuel : Nat) (tag content : String)
    (children : List Token) (st : BState) :
    (1 ≤ getHeadingLevel tag ∧ getHeadingLevel tag ≤ 6) ∧
    (∀ n : Nat, 1 ≤ n → n ≤ 6 → getHeadingLevel ("h" ++ toString n) = n) ∧
    (((ctx.preset = .story ∨ ctx.preset = .default) ∧ ctx.options.useHeadings = true
        ∧ getHeadingLevel tag ≤ ctx.options.maxHeadingLevel) →
      parseBlockTokens ctx (fuel + 2)
          [headingOpenTok tag content, inlineTok children, headingCloseTok] 0 none st
        = some (.ok ([heading (getHeadingLevel tag)
            (if (parseInlineB ctx (some (inlineTok children))).isEmpty then [text "" []]
             else parseInlineB ctx (some (inlineTok children)))], 3, st))) ∧
    (¬((ctx.preset = .story ∨ ctx.preset = .default) ∧ ctx.options.useHeadings = true
        ∧ getHeadingLevel tag ≤ ctx.options.maxHeadingLevel) →
      ¬(ctx.options.strictMode = true
        ∧ (¬(ctx.preset = .story ∨ ctx.preset = .default)
           ∨ (ctx.options.useHeadings = true
              ∧ ctx.options.maxHeadingLevel < getHeadingLevel tag))) →
      ∃ st' : BState, parseBlockTokens ctx (fuel + 2)
          [headingOpenTok tag content, inlineTok children, headingCloseTok] 0 none st
        = some (.ok ([paragraph
            (if parseInlineB ctx (some (inlineTok children)) = [] then [text "" [.strong]]
             else (parseInlineB ctx (some (inlineTok children))).map
               (fun n => match n with
                 | ADFInline.text s ms => ADFInline.text s (ms ++ [.strong])
                 | other => other))], 3, st'))) := by
  refine ⟨?_, ?_, ?_, ?_⟩
  · unfold getHeadingLevel
    split
    · split
      · rename_i hcond
        rw [Bool.and_eq_true, decide_eq_true_eq, decide_eq_true_eq] at hcond
        exact ⟨hcond.1, hcond.2⟩
      · omega
    · omega
  · intro n h1 h6
    interval_cases n <;> decide
  · intro ⟨hpre, hu, hle⟩
    rw [parseBlockTokens_heading]
    have hp : (ctx.preset == ContextPreset.story || ctx.preset == ContextPreset.default)
        = true := by
      rcases hpre with h | h <;> simp [h]
    have he : decide (getHeadingLevel tag > ctx.options.maxHeadingLevel) = false := by
      simpa using Nat.not_lt.mpr hle
    simp [hp, hu, he]
  · intro hnot hna
    have hdown : ((ctx.preset == ContextPreset.story || ctx.preset == ContextPreset.default)
        && ctx.options.useHeadings
        && !decide (getHeadingLevel tag > ctx.options.maxHeadingLevel)) = false := by
      by_contra hcontra
      rw [Bool.not_eq_false] at hcontra
      have h3 := (Bool.and_eq_true _ _).mp hcontra
      have h4 := (Bool.and_eq_true _ _).mp h3.1
      refine hnot ⟨?_, h4.2, ?_⟩
      · rcases Bool.or_eq_true_iff.mp h4.1 with h | h
        · exact Or.inl (by simpa [beq_iff_eq] using h)
        · exact Or.inr (by simpa [beq_iff_eq] using h)
      · have := h3.2
        simp only [Bool.not_eq_true'] at this
        simpa [Nat.not_lt] using of_decide_eq_false this
    have hthrow : (ctx.options.strictMode &&
        (!(ctx.preset == ContextPreset.story || ctx.preset == ContextPreset.default)
          || (ctx.options.useHeadings
              && decide (getHeadingLevel tag > ctx.options.maxHeadingLevel)))) = false := by
      by_contra hcontra
      rw [Bool.not_eq_false] at hcontra
      have h3 := (Bool.and_eq_true _ _).mp hcontra
      apply hna
      refine ⟨h3.1, ?_⟩
      rcases Bool.or_eq_true_iff.mp h3.2 with h | h
      · left
        intro hpre
        have hfalse : (ctx.preset == ContextPreset.story
            || ctx.preset == ContextPreset.default) = false := by simpa using h
        rcases hpre with hh | hh <;> simp [hh] at hfalse
      · right
        have h4 := (Bool.and_eq_true _ _).mp h
        exact ⟨h4.1, of_decide_eq_true h4.2⟩
    have hmain : parseBlockTokens ctx (fuel + 2)
        [headingOpenTok tag content, inlineTok children, headingCloseTok] 0 none st
      = some (.ok ([paragraph (applyMarkToInline
          (parseInlineB ctx (some (inlineTok children))) .strong)], 3,
          if !(ctx.preset == ContextPreset.story || ctx.preset == ContextPreset.default)
              || (ctx.options.useHeadings
                  && decide (getHeadingLevel tag > ctx.options.maxHeadingLevel)) then
            addWarning st .lossy_conversion
              (headingDowngradeReason ctx tag ++ "; converting to bold text") none
              (some content)
          else st)) := by
      rw [parseBlockTokens_heading, hdown]
      simp only [Bool.false_eq_true, if_false, hthrow]
    have harr : applyMarkToInline (parseInlineB ctx (some (inlineTok children))) ADFMark.strong
        = (if parseInlineB ctx (some (inlineTok children)) = [] then [text "" [.strong]]
           else (parseInlineB ctx (some (inlineTok children))).map
             (fun n => match n with
               | ADFInline.text s ms => ADFInline.text s (ms ++ [.strong])
               | other => other)) := by
      unfold applyMarkToInline
      cases hinl : parseInlineB ctx (some (inlineTok children)) <;> simp [text]
    rw [harr] at hmain
    exact ⟨_, hmain⟩

/-- C7 witness: a `story`-preset call with the level in range emits a real
Heading node. -/
theorem claim_C7_heading_emission_witness :
    parseBlockTokens (mkBlockCtx ⟨some .story, none, none, none, none, none⟩ defaultGen)
        (0 + 2) [headingOpenTok "h2" "## H", inlineTok [textTok "H"], headingCloseTok] 0 none
        { warnings := [], nextId := 0 }
      = some (.ok ([heading 2 [text "H" []]], 3, { warnings := [], nextId := 0 })) := by
  have h := (claim_C7_heading_emission
      (mkBlockCtx ⟨some .story, none, none, none, none, none⟩ defaultGen) 0 "h2" "## H"
      [textTok "H"] { warnings := [], nextId := 0 }).2.2.1
    ⟨Or.inl rfl, rfl, by decide⟩
  rw [h]
  rfl

/-- Helper: the block parser step at end of input. -/
theorem parseBlockTokens_eos (ctx : BlockCtx) (fuel : Nat) (tokens : List Token) (i : Nat)
    (endType : Option String) (st : BState) (h : tokens[i]? = none) :
    parseBlockTokens ctx (fuel + 1) tokens i endType st = some (.ok ([], i, st)) := by
  rw [parseBlockTokens]
  simp [h]

/-- Helper: the block parser step at a `table_open` token with no end type. -/
theorem parseBlockTokens_table_step (ctx : BlockCtx) (fuel : Nat) (tokens : List Token)
    (i : Nat) (st : BState) (tok : Token) (node : ADFBlock) (n : Nat)
    (hget : tokens[i]? = some tok) (htype : tok.ttype = "table_open")
    (htable : parseTable ctx fuel tokens i = some (node, n)) :
    parseBlockTokens ctx (fuel + 1) tokens i none st
      = bres_bind (parseBlockTokens ctx fuel tokens n none
          (warnIfRisky ctx st (getLine tok)))
        (fun r => some (.ok (node :: r.1, r.2.1, r.2.2))) := by
  rw [parseBlockTokens]
  simp [hget, htype, htable]

/-- Helper: evaluating the table parser on the canonical table stream. -/
theorem parseTable_c5 (ctx : BlockCtx) :
    parseTable ctx 39 c5TableTokens 0 = some (tableNode c5Rows, 16) := rfl

/-- Helper: evaluating the block parser on the canonical table stream, for any
context and state; the resulting state is exactly `warnIfRisky` of the input
state. -/
theorem parseBlockTokens_table (ctx : BlockCtx) (st : BState) :
    parseBlockTokens ctx 40 c5TableTokens 0 none st
      = some (.ok ([tableNode c5Rows], 16, warnIfRisky ctx st none)) := by
  rw [show (40 : Nat) = 39 + 1 from rfl,
    parseBlockTokens_table_step ctx 39 c5TableTokens 0 st (bareTok "table_open")
      (tableNode c5Rows) 16 rfl rfl (parseTable_c5 ctx)]
  rw [show (39 : Nat) = 38 + 1 from rfl,
    parseBlockTokens_eos ctx 38 c5TableTokens 16 none
      (warnIfRisky ctx st (getLine (bareTok "table_open"))) rfl]
  rfl

/-- C5: the additive risky-table warning mechanism works exactly as claimed
when `warnOnRiskyNodes` is in effect under the `comment` preset (one
RiskyFeature warning appended and the fully-formed table still emitted), but
the claimed on-by-default under the `comment` preset is a code bug: the
`resolveOptions` / preset table in `src/presets/index.ts` carries no
`warnOnRiskyNodes` key at all, so the resolved options always read it as
falsy and a plain `preset: comment` call emits no RiskyFeature warning,
contradicting the README, `docs/presets.md` and the unit test
`warns on risky nodes when enabled`. -/
theorem claim_C5_risky_table :
    resolveOptions commentOptions
      = { useHeadings := false, maxHeadingLevel := 6, preserveLineBreaks := false,
          strictMode := false, defaultCodeLanguage := "text", warnOnRiskyNodes := false } ∧
    (∀ (ctx : BlockCtx) (st : BState), ctx.options.warnOnRiskyNodes = true →
      ctx.preset = ContextPreset.comment →
      parseBlockTokens ctx 40 c5TableTokens 0 none st
        = some (.ok ([tableNode c5Rows], 16,
          addWarning st .risky_feature
            "Tables in comments are supported but can be inconsistent in some Jira views"
            none none))) ∧
    (∀ (ctx : BlockCtx) (st : BState), ctx.options.warnOnRiskyNodes = false →
      parseBlockTokens ctx 40 c5TableTokens 0 none st
        = some (.ok ([tableNode c5Rows], 16, st))) := by
  refine ⟨by decide, ?_, ?_⟩
  · intro ctx st h1 h2
    rw [parseBlockTokens_table]
    simp [warnIfRisky, h1, h2]
  · intro ctx st h1
    rw [parseBlockTokens_table]
    simp [warnIfRisky, h1]

/-- C5 witness: with `warnOnRiskyNodes` forced on under the `comment` preset
the table stream yields the table node plus one RiskyFeature warning. -/
theorem claim_C5_risky_table_witness :
    parseBlockTokens riskyCommentCtx 40 c5TableTokens 0 none
        { warnings := [], nextId := 0 }
      = some (.ok ([tableNode c5Rows], 16,
          { warnings := [⟨.risky_feature,
              "Tables in comments are supported but can be inconsistent in some Jira views",
              none, none⟩], nextId := 0 })) := by
  rw [claim_C5_risky_table.2.1 _ _ rfl rfl]
  rfl

/-- C9: for every regular (non-task) list item, the emitted item content
consists only of Paragraph, BulletList and OrderedList nodes and is never
empty (one empty Paragraph is substituted when the filter removes
everything); when at least one block is filtered out, exactly one
LossyConversion warning is appended for the item — a single warning
regardless of how many blocks were dropped. -/
theorem claim_C9_list_item_filter (ctx : BlockCtx) (fuel : Nat) (tokens : List Token)
    (startIndex : Nat) (st : BState) (li : ADFListItem) (ti : ADFTaskItem) (n : Nat)
    (st' : BState)
    (h : parseListItem ctx (fuel + 1) tokens startIndex false st
      = some (.ok ((li, ti), n, st'))) :
    (∀ b ∈ li.content, allowedInListItem b = true) ∧
    li.content ≠ [] ∧
    (∃ body iEnd stB,
      parseListItemLoop ctx fuel tokens (startIndex + 1) false [] [] false st
        = some (.ok (body, iEnd, stB)) ∧
      li.content = (if (body.1.filter allowedInListItem).isEmpty then [paragraph []]
                    else body.1.filter allowedInListItem) ∧
      n = iEnd + 1 ∧
      st'.warnings = stB.warnings ++
        (if (body.1.filter allowedInListItem).length == body.1.length then []
         else [⟨.lossy_conversion,
           "List items only support paragraphs and nested lists; unsupported blocks were dropped",
           getLineAt tokens startIndex, none⟩])) := by
  rw [parseListItem] at h
  cases hloop : parseListItemLoop ctx fuel tokens (startIndex + 1) false [] [] false st with
  | none => rw [hloop] at h; exact absurd h (by simp [bres_bind])
  | some r =>
    cases r with
    | error e => rw [hloop] at h; exact absurd h (by simp [bres_bind])
    | ok v =>
      obtain ⟨body, iEnd, stB⟩ := v
      rw [hloop] at h
      simp only [bres_bind, Bool.false_eq_true, if_false] at h
      rw [Option.some_inj] at h
      injection h with h
      injection h with hpair hrest
      injection hpair with hli hti
      injection hrest with hn hst
      subst hli
      subst hn
      subst hst
      refine ⟨?_, ?_, ⟨body, iEnd, stB, rfl, rfl, rfl, ?_⟩⟩
      · intro b hb
        simp only [listItem, ADFListItem.content] at hb
        by_cases hempty : (body.1.filter allowedInListItem).isEmpty
        · rw [if_pos hempty] at hb
          simp only [List.mem_singleton] at hb
          rw [hb]
          rfl
        · rw [if_neg hempty] at hb
          exact List.of_mem_filter hb
      · simp only [listItem, ADFListItem.content]
        by_cases hempty : (body.1.filter allowedInListItem).isEmpty
        · simp [hempty]
        · simp only [if_neg hempty]
          simpa [List.isEmpty_iff] using hempty
      · cases hlen : ((body.1.filter allowedInListItem).length == body.1.length) <;>
          simp [freshId, addWarning, hlen]

/-- Helper: the item body loop step at `list_item_close`. -/
theorem parseListItemLoop_close (ctx : BlockCtx) (fuel : Nat) (tokens : List Token)
    (i : Nat) (asTask : Bool) (blocks : List ADFBlock) (tc : List ADFInline) (tch : Bool)
    (st : BState) (tok : Token) (hget : tokens[i]? = some tok)
    (htype : tok.ttype = "list_item_close") :
    parseListItemLoop ctx (fuel + 1) tokens i asTask blocks tc tch st
      = some (.ok ((blocks, tc, tch), i, st)) := by
  rw [parseListItemLoop]
  simp [hget, htype]

/-- Helper: the item body loop step at `paragraph_open` for a regular item. -/
theorem parseListItemLoop_para (ctx : BlockCtx) (fuel : Nat) (tokens : List Token)
    (i : Nat) (blocks : List ADFBlock) (tc : List ADFInline) (tch : Bool)
    (st : BState) (tok : Token) (hget : tokens[i]? = some tok)
    (htype : tok.ttype = "paragraph_open") :
    parseListItemLoop ctx (fuel + 1) tokens i false blocks tc tch st
      = parseListItemLoop ctx fuel tokens (i + 3) false
          (blocks ++ [paragraph (parseInlineTokens ((tokens[i + 1]?).bind Token.children)
            { preserveLineBreaks := ctx.options.preserveLineBreaks,
              stripTaskCheckbox := false }).nodes]) tc tch st := by
  rw [parseListItemLoop]
  simp [hget, htype, List.get?_eq_getElem?]

/-- Helper: the item body loop step at a fence token. -/
theorem parseListItemLoop_fence (ctx : BlockCtx) (fuel : Nat) (tokens : List Token)
    (i : Nat) (asTask : Bool) (blocks : List ADFBlock) (tc : List ADFInline) (tch : Bool)
    (st : BState) (tok : Token) (hget : tokens[i]? = some tok)
    (htype : tok.ttype = "fence") :
    parseListItemLoop ctx (fuel + 1) tokens i asTask blocks tc tch st
      = parseListItemLoop ctx fuel tokens (i + 1) asTask
          (blocks ++ [parseCodeBlockToken ctx tok]) tc tch st := by
  rw [parseListItemLoop]
  simp [hget, htype]

/-- Helper: evaluation of the C9 item token stream. -/
theorem parseListItem_c9 :
    parseListItem (mkBlockCtx noOptions defaultGen) (24 + 1) c9Tokens 0 false
        { warnings := [], nextId := 0 }
      = some (.ok ((listItem [paragraph [text "X" []]],
          ADFTaskItem.mk "task-0" "TODO" []), 7,
          { warnings := [⟨.lossy_conversion,
              "List items only support paragraphs and nested lists; unsupported blocks were dropped",
              none, none⟩], nextId := 1 })) := by
  rw [parseListItem]
  rw [show (24 : Nat) = 23 + 1 from rfl,
    parseListItemLoop_para (mkBlockCtx noOptions defaultGen) 23 c9Tokens 1 [] [] false
      { warnings := [], nextId := 0 } (bareTok "paragraph_open") rfl rfl]
  rw [show (23 : Nat) = 22 + 1 from rfl,
    parseListItemLoop_fence (mkBlockCtx noOptions defaultGen) 22 c9Tokens 4 false _ [] false
      { warnings := [], nextId := 0 } (fenceTok "y = 1\n" "py") rfl rfl]
  rw [show (22 : Nat) = 21 + 1 from rfl,
    parseListItemLoop_fence (mkBlockCtx noOptions defaultGen) 21 c9Tokens 5 false _ [] false
      { warnings := [], nextId := 0 } (fenceTok "z = 2\n" "") rfl rfl]
  rw [show (21 : Nat) = 20 + 1 from rfl,
    parseListItemLoop_close (mkBlockCtx noOptions defaultGen) 20 c9Tokens 6 false _ [] false
      { warnings := [], nextId := 0 } (bareTok "list_item_close") rfl rfl]
  rfl

/-- C9 witness: both dropped fences produce one single warning and the item
keeps only its paragraph. -/
theorem claim_C9_list_item_filter_witness :
    (∀ b ∈ (listItem [paragraph [text "X" []]]).content, allowedInListItem b = true) ∧
    (listItem [paragraph [text "X" []]]).content ≠ [] :=
  let h := claim_C9_list_item_filter (mkBlockCtx noOptions defaultGen) 24 c9Tokens 0
    { warnings := [], nextId := 0 } (listItem [paragraph [text "X" []]])
    (ADFTaskItem.mk "task-0" "TODO" []) 7
    { warnings := [⟨.lossy_conversion,
        "List items only support paragraphs and nested lists; unsupported blocks were dropped",
        none, none⟩], nextId := 1 }
    parseListItem_c9
  ⟨h.1, h.2.1⟩

/-- Appending to the fresh segment of the right class builds a one-item
segment. -/
theorem segAppendItem_fresh (b : Bool) (li : ADFListItem) (ti : ADFTaskItem) :
    segAppendItem (if b then ListSegment.task [] else ListSegment.regular []) li ti
      = singleSeg (b, li, ti) := by
  cases b <;> rfl

/-- A segment with an item appended is never empty. -/
theorem segAppendItem_ne_empty (seg : ListSegment) (li : ADFListItem) (ti : ADFTaskItem) :
    (segAppendItem seg li ti).isEmptySeg = false := by
  cases seg <;> simp [segAppendItem, ListSegment.isEmptySeg]

/-- Appending an item preserves the segment classification. -/
theorem isTask_segAppendItem (seg : ListSegment) (li : ADFListItem) (ti : ADFTaskItem) :
    (segAppendItem seg li ti).isTask = seg.isTask := by
  cases seg <;> rfl

/-- Concatenation keeps the left classification. -/
theorem isTask_segConcat (a b : ListSegment) : (segConcat a b).isTask = a.isTask := by
  cases a <;> cases b <;> rfl

/-- A one-item segment is never empty. -/
theorem singleSeg_ne_empty (x : Bool × ADFListItem × ADFTaskItem) :
    (singleSeg x).isEmptySeg = false := by
  rcases x with ⟨b, li, ti⟩
  cases b <;> simp [singleSeg, ListSegment.isEmptySeg]

/-- The classification of a one-item segment. -/
theorem isTask_singleSeg (x : Bool × ADFListItem × ADFTaskItem) :
    (singleSeg x).isTask = x.1 := by
  rcases x with ⟨b, li, ti⟩
  cases b <;> rfl

/-- Concatenating a matching one-item segment is appending its item. -/
theorem segConcat_singleSeg (seg : ListSegment) (x : Bool × ADFListItem × ADFTaskItem)
    (h : seg.isTask = x.1) :
    segConcat seg (singleSeg x) = segAppendItem seg x.2.1 x.2.2 := by
  rcases x with ⟨b, li, ti⟩
  cases seg <;> cases b <;>
    simp_all [segConcat, singleSeg, segAppendItem, ListSegment.isTask]

/-- Associativity of concatenation around a one-item segment. -/
theorem segConcat_assoc_singleSeg (seg c : ListSegment) (x : Bool × ADFListItem × ADFTaskItem)
    (hseg : seg.isTask = x.1) (hc : c.isTask = x.1) :
    segConcat seg (segConcat (singleSeg x) c)
      = segConcat (segAppendItem seg x.2.1 x.2.2) c := by
  rcases x with ⟨b, li, ti⟩
  cases seg <;> cases c <;> cases b <;>
    simp_all [segConcat, singleSeg, segAppendItem, ListSegment.isTask]

/-- Merging a segment of the same classification as the next item first or
after absorbing that item gives the same chunks. -/
theorem consolidate_same (seg : ListSegment) (x : Bool × ADFListItem × ADFTaskItem)
    (C : List ListSegment) (heq : seg.isTask = x.1) :
    consolidate seg (consolidate (singleSeg x) C)
      = consolidate (segAppendItem seg x.2.1 x.2.2) C := by
  cases C with
  | nil =>
    simp only [consolidate, singleSeg_ne_empty, Bool.false_eq_true, if_false]
    simp only [consolidate, isTask_singleSeg, heq, beq_self_eq_true, if_true,
      segAppendItem_ne_empty, Bool.false_eq_true, if_false]
    rw [segConcat_singleSeg seg x heq]
  | cons c rest =>
    by_cases hc : c.isTask = x.1
    · simp only [consolidate, isTask_singleSeg, hc, beq_self_eq_true, if_true]
      simp only [consolidate, isTask_segConcat, isTask_singleSeg, heq, hc,
        isTask_segAppendItem, beq_self_eq_true, if_true]
      rw [segConcat_assoc_singleSeg seg c x heq hc]
    · have hc2 : (c.isTask == x.1) = false := by simpa using hc
      simp only [consolidate, isTask_singleSeg, hc2, Bool.false_eq_true, if_false,
        singleSeg_ne_empty]
      simp only [consolidate, isTask_singleSeg, heq, beq_self_eq_true, if_true,
        isTask_segAppendItem]
      rw [segConcat_singleSeg seg x heq]
      simp [hc2, heq, segAppendItem_ne_empty]

/-- Consolidating a segment of a different classification than the next item
always stacks (no merge). -/
theorem consolidate_diff (seg : ListSegment) (x : Bool × ADFListItem × ADFTaskItem)
    (C : List ListSegment) (hne : (seg.isTask == x.1) = false) :
    consolidate seg (consolidate (singleSeg x) C)
      = if seg.isEmptySeg then consolidate (singleSeg x) C
        else seg :: consolidate (singleSeg x) C := by
  have hsym : (x.1 == seg.isTask) = false := by
    cases hx : x.1 <;> cases hs : seg.isTask <;> simp_all
  cases C with
  | nil =>
    simp only [consolidate, singleSeg_ne_empty, Bool.false_eq_true, if_false,
      isTask_singleSeg, hsym]
  | cons c rest =>
    by_cases hc : (c.isTask == x.1) = true
    · simp only [consolidate, hc, if_true, isTask_segConcat, isTask_singleSeg, hsym,
        Bool.false_eq_true, if_false]
    · simp only [consolidate, hc, Bool.false_eq_true, if_false, singleSeg_ne_empty,
        isTask_singleSeg, hsym]

/-- Replaying the grouping state machine equals appending the run-chunking of
the remaining items (with the open segment consolidated in front). -/
theorem groupFold_eq_chunk (items : List (Bool × ADFListItem × ADFTaskItem)) :
    ∀ (acc : List ListSegment) (cur : Option ListSegment),
    groupFold acc cur items
      = acc ++ (match cur with
                | none => chunkItems items
                | some seg => consolidate seg (chunkItems items)) := by
  induction items with
  | nil =>
    intro acc cur
    cases cur with
    | none => simp [groupFold, flushSegments, chunkItems]
    | some seg =>
      simp only [groupFold, flushSegments, pushSegment, chunkItems, consolidate]
      split <;> simp
  | cons x rest ih =>
    intro acc cur
    rcases x with ⟨b, li, ti⟩
    cases cur with
    | none =>
      rw [groupFold]
      rw [ih]
      rw [segAppendItem_fresh]
      simp [chunkItems]
    | some seg =>
      by_cases hcls : (seg.isTask == b) = true
      · rw [groupFold]
        simp only [hcls, if_true]
        rw [ih]
        dsimp only
        rw [show (chunkItems ((b, li, ti) :: rest))
              = consolidate (singleSeg (b, li, ti)) (chunkItems rest) from rfl]
        rw [← consolidate_same seg (b, li, ti) (chunkItems rest) (by simpa using hcls)]
      · have hcls2 : (seg.isTask == b) = false := by simpa using hcls
        rw [groupFold]
        simp only [hcls2, Bool.false_eq_true, if_false]
        rw [ih]
        dsimp only
        rw [segAppendItem_fresh]
        rw [show (chunkItems ((b, li, ti) :: rest))
              = consolidate (singleSeg (b, li, ti)) (chunkItems rest) from rfl]
        rw [consolidate_diff seg (b, li, ti) (chunkItems rest) hcls2]
        simp only [pushSegment]
        split <;> simp

/-- The cons step of `groupFold`, as a rewrite rule. -/
theorem groupFold_cons (acc : List ListSegment) (cur : Option ListSegment)
    (x : Bool × ADFListItem × ADFTaskItem) (l : List (Bool × ADFListItem × ADFTaskItem)) :
    groupFold acc cur (x :: l)
      = groupFold
          (match cur with
           | none => acc
           | some seg => if seg.isTask == x.1 then acc else pushSegment acc seg)
          (some (segAppendItem
            (match cur with
             | none => if x.1 then ListSegment.task [] else ListSegment.regular []
             | some seg =>
               if seg.isTask == x.1 then seg
               else if x.1 then ListSegment.task [] else ListSegment.regular [])
            x.2.1 x.2.2)) l := by
  rw [groupFold.eq_def]

/-- Associativity of the result-monad bind. -/
theorem bres_bind_assoc (x : BRes α) (f : α → BRes β) (g : β → BRes γ) :
    bres_bind (bres_bind x f) g = bres_bind x (fun v => bres_bind (f v) g) := by
  cases x with
  | none => rfl
  | some r => cases r with
    | error e => rfl
    | ok v => rfl

/-- Pointwise congruence of the result-monad bind. -/
theorem bres_bind_congr {x : BRes α} {f g : α → BRes β} (h : ∀ v, f v = g v) :
    bres_bind x f = bres_bind x g := by
  cases x with
  | none => rfl
  | some r => cases r with
    | error e => rfl
    | ok v => exact h v

/-- The list-body loop is the ungrouped scan followed by the pure grouping
state machine: grouping commutes with the traversal. -/
theorem parseListLoop_eq_scan (ctx : BlockCtx) :
    ∀ (fuel : Nat) (tokens : List Token) (i : Nat) (closeType listType : String)
      (cur : Option ListSegment) (acc : List ListSegment) (st : BState),
    parseListLoop ctx fuel tokens i closeType listType cur acc st
      = bres_bind (scanListItems ctx fuel tokens i closeType listType st)
          (fun r => some (.ok (groupFold acc cur r.1, r.2.1, r.2.2))) := by
  intro fuel
  induction fuel with
  | zero =>
    intro tokens i closeType listType cur acc st
    rw [parseListLoop, scanListItems]
    rfl
  | succ fuel ih =>
    intro tokens i closeType listType cur acc st
    rw [parseListLoop, scanListItems]
    cases htok : tokens.get? i with
    | none =>
      dsimp only
      simp [bres_bind, groupFold]
    | some tok =>
      dsimp only
      by_cases hclose : (tok.ttype == closeType) = true
      · simp [hclose, bres_bind, groupFold]
      · simp only [hclose, Bool.false_eq_true, if_false]
        by_cases hitem : (tok.ttype == "list_item_open") = true
        · simp only [hitem, if_true]
          rw [bres_bind_assoc]
          apply bres_bind_congr
          intro r
          rw [bres_bind_assoc]
          rw [ih]
          apply bres_bind_congr
          intro rest
          simp only [bres_bind]
          rw [groupFold_cons]
        · simp only [hitem, Bool.false_eq_true, if_false]
          exact ih tokens (i + 1) closeType listType cur acc st

/-- Inversion of a successful bind: both stages succeeded. -/
theorem bres_bind_ok {x : BRes α} {f : α → BRes β} {b : β}
    (h : bres_bind x f = some (.ok b)) :
    ∃ v, x = some (.ok v) ∧ f v = some (.ok b) := by
  cases hx : x with
  | none => rw [hx] at h; simp [bres_bind] at h
  | some r => cases r with
    | error e => rw [hx] at h; simp [bres_bind] at h
    | ok v => rw [hx] at h; exact ⟨v, rfl, h⟩

/-- Consolidating a one-item segment always yields a nonempty chunk list
whose head carries the classification of that item. -/
theorem consolidate_singleSeg_head (x : Bool × ADFListItem × ADFTaskItem)
    (C : List ListSegment) :
    ∃ d rest2, consolidate (singleSeg x) C = d :: rest2 ∧ d.isTask = x.1 := by
  cases C with
  | nil =>
    refine ⟨singleSeg x, [], ?_, isTask_singleSeg x⟩
    simp [consolidate, singleSeg_ne_empty]
  | cons c rest =>
    by_cases hc : (c.isTask == (singleSeg x).isTask) = true
    · refine ⟨segConcat (singleSeg x) c, rest, ?_, ?_⟩
      · simp [consolidate, hc]
      · rw [isTask_segConcat, isTask_singleSeg]
    · refine ⟨singleSeg x, c :: rest, ?_, isTask_singleSeg x⟩
      simp only [consolidate, hc, Bool.false_eq_true, if_false, singleSeg_ne_empty]

/-- Adjacent chunks of the run-chunking always differ in classification: every
classification change starts a new, adjacent output node. -/
theorem chain_chunkItems (items : List (Bool × ADFListItem × ADFTaskItem)) :
    List.Chain' (fun a b => a.isTask ≠ b.isTask) (chunkItems items) := by
  induction items with
  | nil => simp [chunkItems]
  | cons x rest ih =>
    rw [show chunkItems (x :: rest) = consolidate (singleSeg x) (chunkItems rest) from rfl]
    cases hC : chunkItems rest with
    | nil => simp [consolidate, singleSeg_ne_empty]
    | cons c r2 =>
      rw [hC] at ih
      by_cases hc : (c.isTask == (singleSeg x).isTask) = true
      · simp only [consolidate, hc, if_true]
        rw [List.chain'_cons'] at ih ⊢
        refine ⟨?_, ih.2⟩
        intro b hb
        have hcb := ih.1 b hb
        rw [isTask_segConcat]
        have hceq : c.isTask = (singleSeg x).isTask := by simpa using hc
        rw [← hceq]
        exact hcb
      · simp only [consolidate, hc, Bool.false_eq_true, if_false, singleSeg_ne_empty]
        rw [List.chain'_cons']
        refine ⟨?_, ih⟩
        intro b hb
        simp only [List.head?_cons, Option.mem_def, Option.some.injEq] at hb
        subst hb
        intro heq
        rw [heq] at hc
        simp at hc

/-- Under an ordered source list the scan classifies every item as non-task,
whatever checkbox syntax the items contain. -/
theorem scanListItems_ordered (ctx : BlockCtx) :
    ∀ (fuel : Nat) (tokens : List Token) (i : Nat) (closeType : String) (st : BState)
      (items : List (Bool × ADFListItem × ADFTaskItem)) (j : Nat) (st2 : BState),
    scanListItems ctx fuel tokens i closeType "ordered" st = some (.ok (items, j, st2)) →
    ∀ x ∈ items, x.1 = false := by
  intro fuel
  induction fuel with
  | zero =>
    intro tokens i closeType st items j st2 h
    rw [scanListItems] at h
    exact Option.noConfusion h
  | succ fuel ih =>
    intro tokens i closeType st items j st2 h
    rw [scanListItems] at h
    split at h
    · simp only [Option.some.injEq, Except.ok.injEq, Prod.mk.injEq] at h
      obtain ⟨h1, _, _⟩ := h
      subst h1
      intro x hx
      exact absurd hx (List.not_mem_nil x)
    · split at h
      · simp only [Option.some.injEq, Except.ok.injEq, Prod.mk.injEq] at h
        obtain ⟨h1, _, _⟩ := h
        subst h1
        intro x hx
        exact absurd hx (List.not_mem_nil x)
      · split at h
        · obtain ⟨r, hr, h2⟩ := bres_bind_ok h
          obtain ⟨rest, hrest, h3⟩ := bres_bind_ok h2
          simp only [Option.some.injEq, Except.ok.injEq, Prod.mk.injEq] at h3
          obtain ⟨h1, _, _⟩ := h3
          subst h1
          intro x hx
          rcases List.mem_cons.mp hx with hxh | hxt
          · rw [hxh]
            simp
          · exact ih tokens r.2.1 closeType r.2.2 rest.1 rest.2.1 rest.2.2 hrest x hxt
        · exact ih tokens (i + 1) closeType st items j st2 h

/-- Chunking a sequence of non-task items yields only regular segments. -/
theorem chunkItems_regular (items : List (Bool × ADFListItem × ADFTaskItem))
    (h : ∀ x ∈ items, x.1 = false) :
    ∀ seg ∈ chunkItems items, seg.isTask = false := by
  induction items with
  | nil => intro seg hs; simp [chunkItems] at hs
  | cons x rest ih =>
    have hx : x.1 = false := h x (by simp)
    have hrest := ih (fun y hy => h y (by simp [hy]))
    intro seg hs
    rw [show chunkItems (x :: rest) = consolidate (singleSeg x) (chunkItems rest) from rfl]
      at hs
    cases hC : chunkItems rest with
    | nil =>
      rw [hC] at hs
      simp only [consolidate, singleSeg_ne_empty, Bool.false_eq_true, if_false,
        List.mem_singleton] at hs
      rw [hs, isTask_singleSeg, hx]
    | cons c r2 =>
      rw [hC] at hs
      by_cases hc : (c.isTask == (singleSeg x).isTask) = true
      · simp only [consolidate, hc, if_true] at hs
        rcases List.mem_cons.mp hs with h1 | h2
        · rw [h1, isTask_segConcat, isTask_singleSeg, hx]
        · exact hrest seg (by rw [hC]; exact List.mem_cons_of_mem c h2)
      · simp only [consolidate, hc, Bool.false_eq_true, if_false, singleSeg_ne_empty] at hs
        rcases List.mem_cons.mp hs with h1 | h2
        · rw [h1, isTask_singleSeg, hx]
        · exact hrest seg (by rw [hC]; exact h2)

/-- Rendering regular segments of an ordered list yields only orderedList
nodes. -/
theorem renderSegments_ordered (ctx : BlockCtx) (segs : List ListSegment) :
    ∀ st : BState, (∀ seg ∈ segs, seg.isTask = false) →
    ∀ blk ∈ (renderSegments ctx "ordered" segs st).1, ∃ l, blk = ADFBlock.orderedList l := by
  induction segs with
  | nil => intro st _ blk hb; simp [renderSegments] at hb
  | cons s rest ih =>
    intro st h blk hb
    cases s with
    | task items =>
      exact absurd (h (ListSegment.task items) (by simp)) (by simp [ListSegment.isTask])
    | regular items =>
      simp only [renderSegments] at hb
      rw [show (("ordered" : String) == "bullet") = false from rfl] at hb
      simp only [Bool.false_eq_true, if_false] at hb
      rcases List.mem_cons.mp hb with h1 | h2
      · exact ⟨items, h1⟩
      · exact ih st (fun seg hs => h seg (by simp [hs])) blk h2

/-- `parseList` is the scan followed by run-chunking and rendering. -/
theorem parseList_eq_chunks (ctx : BlockCtx) (fuel : Nat) (tokens : List Token)
    (startIndex : Nat) (listType : String) (st : BState) :
    parseList ctx (fuel + 1) tokens startIndex listType st
      = bres_bind (scanListItems ctx fuel tokens (startIndex + 1)
          (if listType == "bullet" then "bullet_list_close" else "ordered_list_close")
          listType st)
          (fun r => some (.ok ((renderSegments ctx listType (chunkItems r.1) r.2.2).1,
            r.2.1 + 1, (renderSegments ctx listType (chunkItems r.1) r.2.2).2))) := by
  rw [parseList]
  rw [parseListLoop_eq_scan]
  rw [bres_bind_assoc]
  apply bres_bind_congr
  intro r
  simp only [bres_bind]
  rw [groupFold_eq_chunk]
  simp

/-- Helper: the scan step at a `list_item_open` token. -/
theorem scanListItems_item (ctx : BlockCtx) (fuel : Nat) (tokens : List Token) (i : Nat)
    (closeType listType : String) (st : BState) (tok : Token)
    (hget : tokens[i]? = some tok) (htype : tok.ttype = "list_item_open")
    (hclose : (tok.ttype == closeType) = false) :
    scanListItems ctx (fuel + 1) tokens i closeType listType st
      = bres_bind (parseListItem ctx fuel tokens i
            (listType == "bullet" && isTaskListItem tokens i) st)
          (fun r => bres_bind
            (scanListItems ctx fuel tokens r.2.1 closeType listType r.2.2)
            (fun rest => some (.ok ((listType == "bullet" && isTaskListItem tokens i,
              r.1.1, r.1.2) :: rest.1, rest.2.1, rest.2.2)))) := by
  rw [scanListItems]
  simp only [List.get?_eq_getElem?, hget]
  rw [hclose]
  simp only [Bool.false_eq_true, if_false]
  rw [htype]
  simp

/-- Helper: the scan step at the close token of the list. -/
theorem scanListItems_close (ctx : BlockCtx) (fuel : Nat) (tokens : List Token) (i : Nat)
    (closeType listType : String) (st : BState) (tok : Token)
    (hget : tokens[i]? = some tok) (hclose : (tok.ttype == closeType) = true) :
    scanListItems ctx (fuel + 1) tokens i closeType listType st
      = some (.ok ([], i, st)) := by
  rw [scanListItems]
  simp [hget, hclose]

/-- Helper: evaluation of the single C6 item. -/
theorem parseListItem_c6 :
    parseListItem (mkBlockCtx noOptions defaultGen) 13 c6Tokens 1 false
        { warnings := [], nextId := 0 }
      = some (.ok ((listItem [paragraph [text "Z" []]],
          ADFTaskItem.mk "task-0" "TODO" []), 6,
          { warnings := [], nextId := 1 })) := by
  rw [show (13 : Nat) = 12 + 1 from rfl, parseListItem]
  rw [show (12 : Nat) = 11 + 1 from rfl,
    parseListItemLoop_para (mkBlockCtx noOptions defaultGen) 11 c6Tokens 2 [] [] false
      { warnings := [], nextId := 0 } (bareTok "paragraph_open") rfl rfl]
  rw [show (11 : Nat) = 10 + 1 from rfl,
    parseListItemLoop_close (mkBlockCtx noOptions defaultGen) 10 c6Tokens 5 false _ [] false
      { warnings := [], nextId := 0 } (bareTok "list_item_close") rfl rfl]
  rfl

/-- Helper: evaluation of the C6 scan. -/
theorem scanListItems_c6 :
    scanListItems (mkBlockCtx noOptions defaultGen) 14 c6Tokens 1 "ordered_list_close"
        "ordered" { warnings := [], nextId := 0 }
      = some (.ok ([(false, listItem [paragraph [text "Z" []]],
          ADFTaskItem.mk "task-0" "TODO" [])], 6, { warnings := [], nextId := 1 })) := by
  rw [show (14 : Nat) = 13 + 1 from rfl,
    scanListItems_item (mkBlockCtx noOptions defaultGen) 13 c6Tokens 1 "ordered_list_close"
      "ordered" { warnings := [], nextId := 0 } (bareTok "list_item_open") rfl rfl rfl]
  rw [show (("ordered" : String) == "bullet" && isTaskListItem c6Tokens 1) = false from rfl]
  rw [parseListItem_c6]
  simp only [bres_bind]
  rw [show (13 : Nat) = 12 + 1 from rfl,
    scanListItems_close (mkBlockCtx noOptions defaultGen) 12 c6Tokens 6 "ordered_list_close"
      "ordered" { warnings := [], nextId := 1 } (bareTok "ordered_list_close") rfl rfl]

/-- Helper: evaluation of `parseList` on the C6 ordered list. -/
theorem parseList_c6 :
    parseList (mkBlockCtx noOptions defaultGen) (14 + 1) c6Tokens 0 "ordered"
        { warnings := [], nextId := 0 }
      = some (.ok ([ADFBlock.orderedList [listItem [paragraph [text "Z" []]]]], 7,
          { warnings := [], nextId := 1 })) := by
  rw [parseList_eq_chunks]
  rw [show (if ("ordered" : String) == "bullet" then "bullet_list_close"
      else "ordered_list_close") = "ordered_list_close" from rfl]
  rw [scanListItems_c6]
  rfl

/-- C6: `parseList` renders the run-chunking of its item scan — consecutive
items of the same classification are grouped into one segment and each
classification change starts a new segment, so one source list yields the
corresponding sequence of adjacent output nodes; adjacent chunks always
differ in classification; and an ordered list only ever produces
`orderedList` nodes, never task lists, whatever checkbox syntax its items
contain. -/
theorem claim_C6_list_grouping (ctx : BlockCtx) (fuel : Nat) (tokens : List Token)
    (startIndex : Nat) (listType : String) (st : BState) :
    (parseList ctx (fuel + 1) tokens startIndex listType st
      = bres_bind (scanListItems ctx fuel tokens (startIndex + 1)
          (if listType == "bullet" then "bullet_list_close" else "ordered_list_close")
          listType st)
          (fun r => some (.ok ((renderSegments ctx listType (chunkItems r.1) r.2.2).1,
            r.2.1 + 1, (renderSegments ctx listType (chunkItems r.1) r.2.2).2))))
    ∧ (∀ items : List (Bool × ADFListItem × ADFTaskItem),
        List.Chain' (fun a b => a.isTask ≠ b.isTask) (chunkItems items))
    ∧ (∀ (blocks : List ADFBlock) (j : Nat) (st2 : BState),
        parseList ctx (fuel + 1) tokens startIndex "ordered" st
          = some (.ok (blocks, j, st2)) →
        ∀ blk ∈ blocks, ∃ l, blk = ADFBlock.orderedList l) := by
  refine ⟨parseList_eq_chunks ctx fuel tokens startIndex listType st,
    fun items => chain_chunkItems items, ?_⟩
  intro blocks j st2 h
  rw [parseList_eq_chunks] at h
  obtain ⟨r, hr, h2⟩ := bres_bind_ok h
  simp only [Option.some.injEq, Except.ok.injEq, Prod.mk.injEq] at h2
  obtain ⟨hb, _, _⟩ := h2
  subst hb
  exact renderSegments_ordered ctx (chunkItems r.1) r.2.2
    (chunkItems_regular r.1
      (scanListItems_ordered ctx fuel tokens (startIndex + 1) _ st r.1 r.2.1 r.2.2 hr))

/-- C6 witness: the concrete ordered list with a checkbox-free item renders as
a single orderedList block. -/
theorem claim_C6_list_grouping_witness :
    ∃ l, ADFBlock.orderedList [listItem [paragraph [text "Z" []]]]
      = ADFBlock.orderedList l :=
  (claim_C6_list_grouping (mkBlockCtx noOptions defaultGen) 14 c6Tokens 0 "ordered"
      { warnings := [], nextId := 0 }).2.2
    [ADFBlock.orderedList [listItem [paragraph [text "Z" []]]]] 7
    { warnings := [], nextId := 1 } parseList_c6
    (ADFBlock.orderedList [listItem [paragraph [text "Z" []]]]) (by simp)

/-- C8 witness: at a concrete `link_close` token with only a strong mark
active, the step pops the nearest link mark, which leaves the list intact. -/
theorem claim_C8_link_close_pops_nearest_witness :
    (inlineStep ⟨false, false⟩ ⟨[], [ADFMark.strong], false⟩
        (bareTok "link_close")).marks
      = popMark [ADFMark.strong] "link" ∧
    popMark [ADFMark.strong] "link" = [ADFMark.strong] :=
  let h := claim_C8_link_close_pops_nearest ⟨false, false⟩ ⟨[], [ADFMark.strong], false⟩
    (bareTok "link_close") rfl
  ⟨h.1, h.2.2 [ADFMark.strong] (by decide)⟩

mutual
/-- Erasure is the identity on task-free blocks. -/
theorem eraseBlock_id (b : ADFBlock) (h : noTaskBlock b = true) : eraseBlock b = b := by
  cases b with
  | paragraph c => rfl
  | heading l c => rfl
  | bulletList items =>
    rw [eraseBlock, eraseItems_id items (by simpa [noTaskBlock] using h)]
  | orderedList items =>
    rw [eraseBlock, eraseItems_id items (by simpa [noTaskBlock] using h)]
  | taskList lid items => simp [noTaskBlock] at h
  | codeBlock l c => rfl
  | blockQuote c =>
    rw [eraseBlock, eraseBlocks_id c (by simpa [noTaskBlock] using h)]
  | rule => rfl
  | panel p c =>
    rw [eraseBlock, eraseBlocks_id c (by simpa [noTaskBlock] using h)]
  | table a rows =>
    rw [eraseBlock, eraseRows_id rows (by simpa [noTaskBlock] using h)]

/-- Erasure is the identity on task-free block lists. -/
theorem eraseBlocks_id (bs : List ADFBlock) (h : noTaskBlocks bs = true) :
    eraseBlocks bs = bs := by
  cases bs with
  | nil => rfl
  | cons b rest =>
    rw [noTaskBlocks, Bool.and_eq_true] at h
    rw [eraseBlocks, eraseBlock_id b h.1, eraseBlocks_id rest h.2]

/-- Erasure is the identity on task-free list items. -/
theorem eraseItems_id (is : List ADFListItem) (h : noTaskItems is = true) :
    eraseItems is = is := by
  cases is with
  | nil => rfl
  | cons it rest =>
    cases it with
    | mk c =>
      rw [noTaskItems, Bool.and_eq_true] at h
      rw [eraseItems, eraseBlocks_id c h.1, eraseItems_id rest h.2]

/-- Erasure is the identity on task-free table rows. -/
theorem eraseRows_id (rs : List ADFTableRow) (h : noTaskRows rs = true) :
    eraseRows rs = rs := by
  cases rs with
  | nil => rfl
  | cons r rest =>
    cases r with
    | mk cells =>
      rw [noTaskRows, Bool.and_eq_true] at h
      rw [eraseRows, eraseCells_id cells h.1, eraseRows_id rest h.2]

/-- Erasure is the identity on task-free table cells. -/
theorem eraseCells_id (cs : List ADFTableCellNode) (h : noTaskCells cs = true) :
    eraseCells cs = cs := by
  cases cs with
  | nil => rfl
  | cons c rest =>
    cases c with
    | header cc =>
      rw [noTaskCells, Bool.and_eq_true] at h
      rw [eraseCells, eraseBlocks_id cc h.1, eraseCells_id rest h.2]
    | cell cc =>
      rw [noTaskCells, Bool.and_eq_true] at h
      rw [eraseCells, eraseBlocks_id cc h.1, eraseCells_id rest h.2]
end

mutual
/-- Erasure does not change whether a block is task-free. -/
theorem noTask_eraseBlock (b : ADFBlock) : noTaskBlock (eraseBlock b) = noTaskBlock b := by
  cases b with
  | paragraph c => rfl
  | heading l c => rfl
  | bulletList items => rw [eraseBlock, noTaskBlock, noTaskBlock, noTask_eraseItems items]
  | orderedList items => rw [eraseBlock, noTaskBlock, noTaskBlock, noTask_eraseItems items]
  | taskList lid items => rfl
  | codeBlock l c => rfl
  | blockQuote c => rw [eraseBlock, noTaskBlock, noTaskBlock, noTask_eraseBlocks c]
  | rule => rfl
  | panel p c => rw [eraseBlock, noTaskBlock, noTaskBlock, noTask_eraseBlocks c]
  | table a rows => rw [eraseBlock, noTaskBlock, noTaskBlock, noTask_eraseRows rows]

/-- Erasure does not change whether a block list is task-free. -/
theorem noTask_eraseBlocks (bs : List ADFBlock) :
    noTaskBlocks (eraseBlocks bs) = noTaskBlocks bs := by
  cases bs with
  | nil => rfl
  | cons b rest =>
    rw [eraseBlocks, noTaskBlocks, noTaskBlocks, noTask_eraseBlock b, noTask_eraseBlocks rest]

/-- Erasure does not change whether list items are task-free. -/
theorem noTask_eraseItems (is : List ADFListItem) :
    noTaskItems (eraseItems is) = noTaskItems is := by
  cases is with
  | nil => rfl
  | cons it rest =>
    cases it with
    | mk c =>
      rw [eraseItems, noTaskItems, noTaskItems, noTask_eraseBlocks c, noTask_eraseItems rest]

/-- Erasure does not change whether table rows are task-free. -/
theorem noTask_eraseRows (rs : List ADFTableRow) :
    noTaskRows (eraseRows rs) = noTaskRows rs := by
  cases rs with
  | nil => rfl
  | cons r rest =>
    cases r with
    | mk cells =>
      rw [eraseRows, noTaskRows, noTaskRows, noTask_eraseCells cells, noTask_eraseRows rest]

/-- Erasure does not change whether table cells are task-free. -/
theorem noTask_eraseCells (cs : List ADFTableCellNode) :
    noTaskCells (eraseCells cs) = noTaskCells cs := by
  cases cs with
  | nil => rfl
  | cons c rest =>
    cases c with
    | header cc =>
      rw [eraseCells, noTaskCells, noTaskCells, noTask_eraseBlocks cc, noTask_eraseCells rest]
    | cell cc =>
      rw [eraseCells, noTaskCells, noTaskCells, noTask_eraseBlocks cc, noTask_eraseCells rest]
end

/-- Task-free block lists with equal erasures are equal. -/
theorem eraseBlocks_inj_noTask {bs1 bs2 : List ADFBlock}
    (he : eraseBlocks bs1 = eraseBlocks bs2) (h1 : noTaskBlocks bs1 = true) : bs1 = bs2 := by
  have e1 : eraseBlocks bs1 = bs1 := eraseBlocks_id bs1 h1
  have h2 : noTaskBlocks bs2 = true := by
    rw [← noTask_eraseBlocks bs2, ← he, noTask_eraseBlocks bs1]
    exact h1
  have e2 : eraseBlocks bs2 = bs2 := eraseBlocks_id bs2 h2
  rw [← e1, he, e2]

/-- Prepending erasure-equal blocks preserves the line-loop relation. -/
theorem linesRel_cons {b1 b2 : ADFBlock} {r1 r2 : Option (List ADFBlock × BState)}
    (hb : eraseBlock b1 = eraseBlock b2) (hr : linesRel r1 r2) :
    linesRel (omap_cons b1 r1) (omap_cons b2 r2) := by
  cases r1 with
  | none =>
    cases r2 with
    | none => trivial
    | some p2 => rcases p2 with ⟨bs2, st2⟩; exact absurd hr (by simp [linesRel])
  | some p1 =>
    rcases p1 with ⟨bs1, st1⟩
    cases r2 with
    | none => exact absurd hr (by simp [linesRel])
    | some p2 =>
      rcases p2 with ⟨bs2, st2⟩
      obtain ⟨he, hst⟩ := hr
      exact ⟨by rw [eraseBlocks, eraseBlocks, hb, he], hst⟩

/-- The task-item collector generates ids from the oracle but is otherwise
deterministic: same count, same final state, erasure-equal items. -/
theorem collectTasksMC_det (opts : ResolvedOptions) (ip : String → List ADFInline)
    (gen1 gen2 : Nat → String) :
    ∀ (ls : List String) (st : BState),
    eraseTasks (collectTasksMC ⟨opts, ip, gen1⟩ ls st).1
        = eraseTasks (collectTasksMC ⟨opts, ip, gen2⟩ ls st).1
      ∧ (collectTasksMC ⟨opts, ip, gen1⟩ ls st).2.1
          = (collectTasksMC ⟨opts, ip, gen2⟩ ls st).2.1
      ∧ (collectTasksMC ⟨opts, ip, gen1⟩ ls st).2.2
          = (collectTasksMC ⟨opts, ip, gen2⟩ ls st).2.2 := by
  intro ls
  induction ls with
  | nil => intro st; exact ⟨rfl, rfl, rfl⟩
  | cons l rest ih =>
    intro st
    rw [collectTasksMC, collectTasksMC]
    cases hm : taskMatch l with
    | none => exact ⟨rfl, rfl, rfl⟩
    | some p =>
      rcases p with ⟨checked, txt⟩
      dsimp only
      have hrec := ih (mcFreshId ⟨opts, ip, gen1⟩ st).2
      have hst2 : (mcFreshId ⟨opts, ip, gen2⟩ st).2 = (mcFreshId ⟨opts, ip, gen1⟩ st).2 := rfl
      rw [hst2]
      refine ⟨?_, ?_, hrec.2.2⟩
      · simp only [taskItem]
        rw [eraseTasks, eraseTasks, hrec.1]
      · simp only [hrec.2.1]

/-- `parseTaskListMC` is deterministic up to the generated local ids. -/
theorem parseTaskListMC_det (opts : ResolvedOptions) (ip : String → List ADFInline)
    (gen1 gen2 : Nat → String) (lines : List String) (i : Nat) (st : BState) :
    eraseBlock (parseTaskListMC ⟨opts, ip, gen1⟩ lines i st).1
        = eraseBlock (parseTaskListMC ⟨opts, ip, gen2⟩ lines i st).1
      ∧ (parseTaskListMC ⟨opts, ip, gen1⟩ lines i st).2.1
          = (parseTaskListMC ⟨opts, ip, gen2⟩ lines i st).2.1
      ∧ (parseTaskListMC ⟨opts, ip, gen1⟩ lines i st).2.2
          = (parseTaskListMC ⟨opts, ip, gen2⟩ lines i st).2.2 := by
  have h := collectTasksMC_det opts ip gen1 gen2 (lines.drop i) st
  simp only [parseTaskListMC]
  refine ⟨?_, ?_, ?_⟩
  · simp only [taskList]
    rw [eraseBlock, eraseBlock, h.1]
  · rw [h.2.1]
  · simp only [mcFreshId, h.2.2]

/-- Determinism of the line-based converter up to generated local ids: two
runs differing only in the id oracle succeed together, end in identical
states, and produce erasure-equal output. -/
theorem mc_det (opts : ResolvedOptions) (ip : String → List ADFInline)
    (gen1 gen2 : Nat → String) : ∀ fuel : Nat,
    (∀ md st, docRel (MarkdownConverter.convert ⟨opts, ip, gen1⟩ fuel md st)
        (MarkdownConverter.convert ⟨opts, ip, gen2⟩ fuel md st))
    ∧ (∀ lines i st,
        linesRel (MarkdownConverter.convertLines ⟨opts, ip, gen1⟩ fuel lines i st)
          (MarkdownConverter.convertLines ⟨opts, ip, gen2⟩ fuel lines i st)) := by
  intro fuel
  induction fuel with
  | zero =>
    constructor
    · intro md st
      rw [MarkdownConverter.convert, MarkdownConverter.convert]
      trivial
    · intro lines i st
      rw [MarkdownConverter.convertLines, MarkdownConverter.convertLines]
      trivial
  | succ fuel ih =>
    constructor
    · intro md st
      rw [MarkdownConverter.convert, MarkdownConverter.convert]
      try dsimp only
      by_cases hmt : (jsTrim md == "") = true
      · rw [if_pos hmt, if_pos hmt]
        exact ⟨rfl, rfl⟩
      · rw [if_neg hmt, if_neg hmt]
        have hl := ih.2 (splitLines md) 0 st
        cases h1 : MarkdownConverter.convertLines ⟨opts, ip, gen1⟩ fuel (splitLines md) 0 st
          with
        | none =>
          cases h2 : MarkdownConverter.convertLines ⟨opts, ip, gen2⟩ fuel (splitLines md) 0 st
            with
          | none => trivial
          | some p2 =>
            rw [h1, h2] at hl
            rcases p2 with ⟨bs2, st2⟩
            exact absurd hl (by simp [linesRel])
        | some p1 =>
          rcases p1 with ⟨bs1, st1⟩
          cases h2 : MarkdownConverter.convertLines ⟨opts, ip, gen2⟩ fuel (splitLines md) 0 st
            with
          | none =>
            rw [h1, h2] at hl
            exact absurd hl (by simp [linesRel])
          | some p2 =>
            rcases p2 with ⟨bs2, st2⟩
            rw [h1, h2] at hl
            obtain ⟨he, hst⟩ := hl
            exact ⟨he, hst⟩
    · intro lines i st
      rw [MarkdownConverter.convertLines, MarkdownConverter.convertLines]
      try dsimp only
      cases hline : lines.get? i with
      | none => exact ⟨rfl, rfl⟩
      | some line =>
        try dsimp only
        cases hcls : classifyLine ip lines i line with
        | blank => exact ih.2 lines (i + 1) st
        | fence => exact linesRel_cons rfl (ih.2 lines (parseCodeBlockMC opts lines i).2 st)
        | headingLine level txt => exact linesRel_cons rfl (ih.2 lines (i + 1) st)
        | tableLine node next => exact linesRel_cons rfl (ih.2 lines next st)
        | taskLine =>
          have h := parseTaskListMC_det opts ip gen1 gen2 lines i st
          try dsimp only
          rw [← h.2.1, ← h.2.2]
          exact linesRel_cons h.1 (ih.2 lines (parseTaskListMC ⟨opts, ip, gen1⟩ lines i st).2.1
            (parseTaskListMC ⟨opts, ip, gen1⟩ lines i st).2.2)
        | bulletLine => exact linesRel_cons rfl (ih.2 lines (parseListMC ip true lines i).2 st)
        | orderedLine =>
          exact linesRel_cons rfl (ih.2 lines (parseListMC ip false lines i).2 st)
        | quoteLine =>
          try dsimp only
          have hq := ih.1
            (String.intercalate "\n" (collectQuoteMC (lines.drop i)).1) st
          cases hq1 : MarkdownConverter.convert ⟨opts, ip, gen1⟩ fuel
              (String.intercalate "\n" (collectQuoteMC (lines.drop i)).1) st with
          | none =>
            cases hq2 : MarkdownConverter.convert ⟨opts, ip, gen2⟩ fuel
                (String.intercalate "\n" (collectQuoteMC (lines.drop i)).1) st with
            | none => trivial
            | some p2 =>
              rw [hq1, hq2] at hq
              rcases p2 with ⟨d2, st2⟩
              exact absurd hq (by simp [docRel])
          | some p1 =>
            rcases p1 with ⟨d1, st1⟩
            cases hq2 : MarkdownConverter.convert ⟨opts, ip, gen2⟩ fuel
                (String.intercalate "\n" (collectQuoteMC (lines.drop i)).1) st with
            | none =>
              rw [hq1, hq2] at hq
              exact absurd hq (by simp [docRel])
            | some p2 =>
              rcases p2 with ⟨d2, st2⟩
              rw [hq1, hq2] at hq
              obtain ⟨he, hst⟩ := hq
              subst hst
              refine linesRel_cons ?_ (ih.2 lines (i + (collectQuoteMC (lines.drop i)).2) st1)
              simp only [blockQuote, eraseBlock]
              rw [he]
        | hrLine =>
          exact ih.2 lines (i + 1)
            (addWarning st .unsupported_feature "Horizontal rules are not widely supported"
              (some (i + 1)) (some line))
        | paraLine => exact linesRel_cons rfl (ih.2 lines (i + 1) st)

/-- C10: two converter runs that differ only in the local-id oracle succeed
together, end in identical states, and produce erasure-equal documents; when
the produced document has no task list, the runs are identical. -/
theorem claim_C10_localid_determinism (opts : ResolvedOptions)
    (ip : String → List ADFInline) (gen1 gen2 : Nat → String) (fuel : Nat)
    (md : String) (st : BState) :
    docRel (MarkdownConverter.convert ⟨opts, ip, gen1⟩ fuel md st)
      (MarkdownConverter.convert ⟨opts, ip, gen2⟩ fuel md st)
    ∧ (∀ (d : ADFDocument) (st2 : BState),
        MarkdownConverter.convert ⟨opts, ip, gen1⟩ fuel md st = some (d, st2) →
        noTaskBlocks d.content = true →
        MarkdownConverter.convert ⟨opts, ip, gen2⟩ fuel md st = some (d, st2)) := by
  refine ⟨(mc_det opts ip gen1 gen2 fuel).1 md st, ?_⟩
  intro d st2 h1 hnt
  have hrel := (mc_det opts ip gen1 gen2 fuel).1 md st
  rw [h1] at hrel
  cases h2 : MarkdownConverter.convert ⟨opts, ip, gen2⟩ fuel md st with
  | none => rw [h2] at hrel; exact absurd hrel (by simp [docRel])
  | some p2 =>
    rcases p2 with ⟨d2, st3⟩
    rw [h2] at hrel
    obtain ⟨he, hst⟩ := hrel
    subst hst
    have hc : d.content = d2.content := eraseBlocks_inj_noTask he hnt
    cases d with
    | mk c1 =>
      cases d2 with
      | mk c2 =>
        simp only at hc
        rw [hc]

/-- Helper: a one-line paragraph input evaluates identically for every id
oracle. -/
theorem convert_hi (gen : Nat → String) :
    MarkdownConverter.convert ⟨opts0, ip0, gen⟩ 3 "hi" { warnings := [], nextId := 0 }
      = some (doc [paragraph [text "hi" []]], { warnings := [], nextId := 0 }) := by
  rw [show (3 : Nat) = 2 + 1 from rfl, MarkdownConverter.convert]
  try dsimp only
  rw [if_neg (by decide)]
  rw [show splitLines "hi" = ["hi"] from rfl]
  rw [show (2 : Nat) = 1 + 1 from rfl, MarkdownConverter.convertLines]
  try dsimp only
  rw [show (["hi"] : List String).get? 0 = some "hi" from rfl]
  try dsimp only
  rw [show classifyLine ip0 ["hi"] 0 "hi" = LineKind.paraLine from rfl]
  try dsimp only
  rw [show (1 : Nat) = 0 + 1 from rfl, MarkdownConverter.convertLines]
  rfl

/-- C10 witness: the two concrete oracles give the identical document on a
plain paragraph input. -/
theorem claim_C10_localid_determinism_witness :
    MarkdownConverter.convert ⟨opts0, ip0, gen2b⟩ 3 "hi" { warnings := [], nextId := 0 }
      = some (doc [paragraph [text "hi" []]], { warnings := [], nextId := 0 }) :=
  (claim_C10_localid_determinism opts0 ip0 defaultGen gen2b 3 "hi"
      { warnings := [], nextId := 0 }).2
    (doc [paragraph [text "hi" []]]) { warnings := [], nextId := 0 }
    (convert_hi defaultGen) (by simp [doc, noTaskBlocks, noTaskBlock, paragraph])

/-- C4 (amended): an empty or whitespace-only input always converts to a
document whose content is exactly one empty paragraph. -/
theorem claim_C4_empty_paragraph (ctx : MCtx) (fuel : Nat) (markdown : String)
    (st : BState) (h : jsTrim markdown = "") :
    MarkdownConverter.convert ctx (fuel + 1) markdown st
      = some (doc [paragraph []], st) := by
  rw [MarkdownConverter.convert]
  try dsimp only
  rw [if_pos (by simp [h])]

/-- C4 witness: converting the empty string yields one empty paragraph. -/
theorem claim_C4_empty_paragraph_witness :
    MarkdownConverter.convert ⟨opts0, ip0, defaultGen⟩ 1 "" { warnings := [], nextId := 0 }
      = some (doc [paragraph []], { warnings := [], nextId := 0 }) :=
  claim_C4_empty_paragraph ⟨opts0, ip0, defaultGen⟩ 0 "" { warnings := [], nextId := 0 } rfl

/-- C4 counterexample: a horizontal-rule-only input converts (with a warning)
to a document with zero blocks, refuting the at-least-one-block invariant. -/
theorem claim_C4_counterexample :
    MarkdownConverter.convert ⟨opts0, ip0, defaultGen⟩ 3 "---" { warnings := [], nextId := 0 }
      = some (doc [],
          ⟨[⟨.unsupported_feature, "Horizontal rules are not widely supported",
            some 1, some "---"⟩], 0⟩) := by
  rw [show (3 : Nat) = 2 + 1 from rfl, MarkdownConverter.convert]
  try dsimp only
  rw [if_neg (by decide)]
  rw [show splitLines "---" = ["---"] from rfl]
  rw [show (2 : Nat) = 1 + 1 from rfl, MarkdownConverter.convertLines]
  try dsimp only
  rw [show (["---"] : List String).get? 0 = some "---" from rfl]
  try dsimp only
  rw [show classifyLine ip0 ["---"] 0 "---" = LineKind.hrLine from rfl]
  try dsimp only
  rw [show (1 : Nat) = 0 + 1 from rfl, MarkdownConverter.convertLines]
  rfl
